import Mathlib

/-!
Verification development for the TinyMMOServer authoritative tick core.

The definitions below are a shallow embedding of the server sources:

* `NetworkObjectUpdater.cpp` (map transitions, NPC behavior, target finding),
* `PathController.cpp` (path storage, result draining, line of sight, and the
  A* path-finding worker),
* the tick-engine `main.cpp` (pending attack spawns, lifetime timers), and
* `MapDataRepository.cpp` (manifest / navmap loading).

C++ `float` scalars are embedded as real numbers (`ℝ`); the discrete parts
(ids, tile coordinates, containers, events) are embedded exactly.  A*
path costs, whose float arithmetic is exact (small integers only), are
embedded as rationals so the search core stays executable.

Pieces of the repository that live in the `net_common` headers are not part
of the provided sources (only their callers are); those are modelled from
the specification and are marked `Modelled from the spec:` in their doc
comments.
-/

namespace TinyMMO

/-- A 2-component vector of reals (embeds `glm::vec2`). -/
structure Vec2 where
  x : ℝ
  y : ℝ

/-- A 3-component vector of reals (embeds `glm::vec3`). -/
structure Vec3 where
  x : ℝ
  y : ℝ
  z : ℝ

namespace Vec3

/-- Componentwise addition, as `glm` vector addition. -/
def add (a b : Vec3) : Vec3 := ⟨a.x + b.x, a.y + b.y, a.z + b.z⟩

/-- Componentwise subtraction, as `glm` vector subtraction. -/
def sub (a b : Vec3) : Vec3 := ⟨a.x - b.x, a.y - b.y, a.z - b.z⟩

/-- Scaling a vector by a scalar, as `glm` scalar multiplication. -/
def smul (s : ℝ) (a : Vec3) : Vec3 := ⟨s * a.x, s * a.y, s * a.z⟩

/-- The zero vector, `glm::vec3(0.0f)`. -/
def zero : Vec3 := ⟨0, 0, 0⟩

/-- Euclidean length of a vector, embedding `glm::length`. -/
noncomputable def length (a : Vec3) : ℝ :=
  Real.sqrt (a.x ^ 2 + a.y ^ 2 + a.z ^ 2)

/-- Euclidean distance between two points, embedding `glm::distance`. -/
noncomputable def dist (a b : Vec3) : ℝ := length (sub b a)

/-- Unit vector in the direction of `a`, embedding `glm::normalize`.
(For the zero vector this yields the zero vector; the C++ call is undefined
there and no theorem below depends on that case.) -/
noncomputable def normalize (a : Vec3) : Vec3 := smul (length a)⁻¹ a

end Vec3

/-- C++ `static_cast<int>` on a float truncates toward zero. -/
noncomputable def truncToInt (x : ℝ) : ℤ := if 0 ≤ x then ⌊x⌋ else ⌈x⌉

/-- The 31-ary polynomial string hash of `strutils::GetStringHash`, folded
over the characters modulo 2^32 (the result is stored in a `uint32_t`). -/
def GetStringHash (s : String) : ℕ :=
  s.data.foldl (fun r c => (31 * r + c.toNat) % 4294967296) 0

/-- `strutils::StringId::isEmpty` compares the stored hash against 0; a
default-constructed `StringId` holds the empty string whose hash is 0. -/
def sidIsEmpty (s : String) : Bool := GetStringHash s == 0

/-- Object kinds (`network::ObjectType`). -/
inductive ObjectType where
  | PLAYER | NPC | ATTACK | STATIC
deriving DecidableEq

/-- Attack kinds (`network::AttackType`). -/
inductive AttackType where
  | NONE | MELEE | PROJECTILE
deriving DecidableEq

/-- Projectile kinds (`network::ProjectileType`); only the absence marker is
exercised by the claims. -/
inductive ProjectileType where
  | NONE | FIREBALL
deriving DecidableEq

/-- Object behavioral states (`network::ObjectState`). -/
inductive ObjectState where
  | IDLE | RUNNING | MELEE_ATTACK
deriving DecidableEq

/-- Factions (`network::ObjectFaction`). -/
inductive ObjectFaction where
  | GOOD | EVIL | NEUTRAL
deriving DecidableEq

/-- The eight facing directions (`network::FacingDirection`). -/
inductive FacingDirection where
  | NORTH | NORTH_EAST | EAST | SOUTH_EAST | SOUTH | SOUTH_WEST | WEST | NORTH_WEST
deriving DecidableEq

/-- Navmap tile kinds (`network::NavmapTileType`). -/
inductive NavmapTileType where
  | WALKABLE | SOLID
deriving DecidableEq

/-- Collider shapes (`network::ColliderType`). -/
inductive ColliderType where
  | RECTANGLE | CIRCLE
deriving DecidableEq

/-- Collider description embedded in every object (`network::ColliderData`):
a shape and half-extents relative to the object scale. -/
structure ColliderData where
  colliderType : ColliderType
  colliderRelativeDimentions : Vec2

/-- Modelled from the spec: `network::ObjectData` (the `net_common` header is
not among the provided sources).  Fields follow §3 of the specification and
every use site in the provided sources; `current_map` is kept as a string. -/
structure ObjectData where
  objectId : ℕ
  parentObjectId : ℕ
  objectType : ObjectType
  attackType : AttackType
  projectileType : ProjectileType
  position : Vec3
  velocity : Vec3
  speed : ℝ
  facingDirection : FacingDirection
  objectState : ObjectState
  objectFaction : ObjectFaction
  colliderData : ColliderData
  objectScale : ℝ
  actionTimer : ℝ
  currentMap : String

/-- Modelled from the spec: `network::GetCurrentMapString` reads the object's
current-map identifier. -/
def GetCurrentMapString (o : ObjectData) : String := o.currentMap

/-- Modelled from the spec: `network::SetCurrentMap` overwrites the object's
current-map identifier. -/
def SetCurrentMap (o : ObjectData) (m : String) : ObjectData :=
  { o with currentMap := m }

/-- Map connection slots (`MapConnectionDirection` in `MapDataRepository.h`),
with the array indices used by the C++ enum. -/
inductive MapConnectionDirection where
  | NORTH | EAST | SOUTH | WEST
deriving DecidableEq

/-- Per-map metadata (`MapMetaData` in `MapDataRepository.h`): dimensions,
center position, and the four connection names (the literal string "None"
denotes a missing neighbor, exactly as stored from the manifest). -/
structure MapMetaData where
  mMapDimensions : Vec2
  mMapPosition : Vec2
  mMapConnections : MapConnectionDirection → String

/-- Global scale constant `network::MAP_GAME_SCALE`.  The `net_common`
header defining it is not among the provided sources, so theorems are
parameterized over it; the tick-engine `main.cpp` uses the same value under
the name `WORLD_MAP_SCALE` (= 4). -/
structure NetConstants where
  MAP_GAME_SCALE : ℝ
  MAP_TILE_SIZE : ℝ

/-- `NetworkObjectUpdater::CheckForMapChange`: selects a candidate neighbor
name by comparing the position against the map's world AABB edges, testing
east, west, north, south mutually exclusively in that order; a
default-constructed (empty) `StringId` results when no edge is exceeded. -/
noncomputable def selectNextMapName (scale : ℝ) (o : ObjectData) (meta : MapMetaData) : String :=
  if o.position.x > meta.mMapPosition.x * scale
      + (meta.mMapDimensions.x * scale) / 2 then
    meta.mMapConnections MapConnectionDirection.EAST
  else if o.position.x < meta.mMapPosition.x * scale
      - (meta.mMapDimensions.x * scale) / 2 then
    meta.mMapConnections MapConnectionDirection.WEST
  else if o.position.y > meta.mMapPosition.y * scale
      + (meta.mMapDimensions.y * scale) / 2 then
    meta.mMapConnections MapConnectionDirection.NORTH
  else if o.position.y < meta.mMapPosition.y * scale
      - (meta.mMapDimensions.y * scale) / 2 then
    meta.mMapConnections MapConnectionDirection.SOUTH
  else
    ""

/-- `NetworkObjectUpdater::CheckForMapChange` (NetworkObjectUpdater.cpp):
assigns the selected neighbor to the object's current map only when the
name is non-empty and not the literal "None", and returns
`!nextMapName.isEmpty()`. -/
noncomputable def CheckForMapChange (K : NetConstants) (o : ObjectData)
    (meta : MapMetaData) : ObjectData × Bool :=
  let nextMapName := selectNextMapName K.MAP_GAME_SCALE o meta
  let o' := if sidIsEmpty nextMapName = false ∧ nextMapName ≠ "None" then
      SetCurrentMap o nextMapName
    else o
  (o', !sidIsEmpty nextMapName)

/-- Modelled from the spec: `network::Navmap` (net_common).  A square grid of
side `size`; `tile` gives the decoded tile for in-bounds coordinates (the
out-of-bounds policy lives in `GetNavmapTileAt`).  The spec's conversion
formulas use the map dimension, which the modelled navmap carries. -/
structure Navmap where
  size : ℕ
  mapDimension : ℝ
  tile : ℤ × ℤ → NavmapTileType

namespace Navmap

/-- `Navmap::GetSize`. -/
def GetSize (nm : Navmap) : ℕ := nm.size

/-- Modelled from the spec: `Navmap::GetNavmapTileAt` — out-of-bounds
tile coordinates are treated as SOLID; the pair is (col, row) mirroring the
`glm::ivec2` (x, y) components. -/
def GetNavmapTileAt (nm : Navmap) (c : ℤ × ℤ) : NavmapTileType :=
  if 0 ≤ c.1 ∧ c.1 < (nm.size : ℤ) ∧ 0 ≤ c.2 ∧ c.2 < (nm.size : ℤ) then
    nm.tile c
  else
    NavmapTileType.SOLID

/-- Modelled from the spec: the tile size
`T = map_dimension * MAP_GAME_SCALE / N`. -/
noncomputable def tileSizeT (nm : Navmap) (scale : ℝ) : ℝ :=
  nm.mapDimension * scale / (nm.size : ℝ)

/-- Modelled from the spec: `Navmap::GetNavmapCoord` — floors
`(worldXY - map_center * scale + half_map_size) / T` to produce (col,row). -/
noncomputable def GetNavmapCoord (nm : Navmap) (pos : Vec3) (mapPos : Vec2)
    (scale : ℝ) : ℤ × ℤ :=
  (⌊(pos.x - mapPos.x * scale + nm.mapDimension * scale / 2) / nm.tileSizeT scale⌋,
   ⌊(pos.y - mapPos.y * scale + nm.mapDimension * scale / 2) / nm.tileSizeT scale⌋)

/-- Modelled from the spec: `Navmap::GetMapPositionFromNavmapCoord` — the
world position of the tile center, with the caller-supplied z passed
through unchanged. -/
noncomputable def GetMapPositionFromNavmapCoord (nm : Navmap) (c : ℤ × ℤ)
    (mapPos : Vec2) (scale z : ℝ) : Vec3 :=
  ⟨mapPos.x * scale - nm.mapDimension * scale / 2 + ((c.1 : ℝ) + 1 / 2) * nm.tileSizeT scale,
   mapPos.y * scale - nm.mapDimension * scale / 2 + ((c.2 : ℝ) + 1 / 2) * nm.tileSizeT scale,
   z⟩

end Navmap

/-- Events dispatched through the process-wide `events::EventSystem`;
constructors mirror the event classes in `events/Events.h`. -/
inductive GameEvent where
  | objectDestroyed (objectId : ℕ)
  | networkObjectCollision (lhs rhs : ℕ)
  | npcAggro (npcObjectId targetObjectId : ℕ)
  | npcAttack (npcObjectId : ℕ) (attackType : AttackType) (projectileType : ProjectileType)
deriving DecidableEq

/-- A path-finding task as enqueued by `PathController::FindPath`
(PathController.h): object id, start and target world positions, map
origin, and the navmap (borrowed by reference in C++, carried by value
here since navmaps are immutable after load). -/
structure PathFindingTask where
  mObjectId : ℕ
  mStartPosition : Vec3
  mTargetPosition : Vec3
  mMapPosition : Vec2
  mNavmap : Navmap

/-- A path-finding result produced by the worker (PathController.h). -/
structure PathFindingResult where
  mObjectId : ℕ
  mPath : List Vec3

/-- The `PathController` state: the per-object path map `mPaths`
(queue front = list head), plus the contents of the two worker queues in
enqueue order. -/
structure PCState where
  mPaths : ℕ → Option (List Vec3)
  taskQueue : List PathFindingTask
  resultQueue : List PathFindingResult

namespace PCState

/-- `PathController::DoesObjectHavePath`: membership in `mPaths`. -/
def DoesObjectHavePath (st : PCState) (objectId : ℕ) : Bool :=
  (st.mPaths objectId).isSome

/-- `PathController::GetPath` (`mPaths.at(objectId)`); presence is an
invariant at every call site, so the empty list stands for the
impossible missing case. -/
def GetPath (st : PCState) (objectId : ℕ) : List Vec3 :=
  (st.mPaths objectId).getD []

/-- One iteration of the drain loop in `PathController::Update`: a result
whose path is non-empty is stored under its object id, an empty result
leaves the map untouched. -/
def applyResult (paths : ℕ → Option (List Vec3)) (r : PathFindingResult) :
    ℕ → Option (List Vec3) :=
  if 0 < r.mPath.length then
    fun i => if i = r.mObjectId then some r.mPath else paths i
  else
    paths

/-- `PathController::Update` (PathController.cpp, lines 239-250): dequeues
every currently available result and applies it; the result queue is
empty afterwards. -/
def Update (st : PCState) : PCState :=
  { st with
    mPaths := st.resultQueue.foldl applyResult st.mPaths
    resultQueue := [] }

/-- `PathController::FindPath`: builds the target position at the source
z and enqueues a task. -/
def FindPath (st : PCState) (src tgt : ObjectData) (mapPos : Vec2)
    (nm : Navmap) : PCState :=
  let targetPosition : Vec3 := ⟨tgt.position.x, tgt.position.y, src.position.z⟩
  { st with taskQueue :=
      st.taskQueue ++ [⟨src.objectId, src.position, targetPosition, mapPos, nm⟩] }

/-- `PathController::ClearObjectPath`: erases the id's entry. -/
def ClearObjectPath (st : PCState) (objectId : ℕ) : PCState :=
  { st with mPaths := fun i => if i = objectId then none else st.mPaths i }

/-- `PathController::AddTargetPositionToPath`: `mPaths[objectId].push(target)`
(default-constructing an empty queue when absent). -/
def AddTargetPositionToPath (st : PCState) (objectId : ℕ) (target : Vec3) : PCState :=
  { st with mPaths := fun i =>
      if i = objectId then some ((st.mPaths objectId).getD [] ++ [target])
      else st.mPaths i }

/-- `PathController::SetObjectTargetPosition`: clear, then push one target. -/
def SetObjectTargetPosition (st : PCState) (objectId : ℕ) (target : Vec3) : PCState :=
  (st.ClearObjectPath objectId).AddTargetPositionToPath objectId target

end PCState

/-- `PathController::IsTargetInLOS` (PathController.cpp, lines 284-303):
ray-marches from the source toward the target (taken at the source z) in
increments of `speed * dtMillis / 2`, for `(int)(distance / increment)`
steps (a C++ float-to-int cast truncates toward zero), sampling the navmap
at each step; true iff every sampled tile is WALKABLE. -/
noncomputable def IsTargetInLOS (K : NetConstants) (src tgt : ObjectData)
    (nm : Navmap) (mapPos : Vec2) (dtMillis : ℝ) : Bool :=
  let targetPosition : Vec3 := ⟨tgt.position.x, tgt.position.y, src.position.z⟩
  let dirN := Vec3.normalize (Vec3.sub targetPosition src.position)
  let tIncrements := src.speed * dtMillis / 2
  let numTIncrements := truncToInt (Vec3.dist src.position targetPosition / tIncrements)
  decide (∀ i ∈ Finset.range numTIncrements.toNat,
    nm.GetNavmapTileAt
      (nm.GetNavmapCoord
        (Vec3.add src.position (Vec3.smul ((i : ℝ) * tIncrements) dirN))
        mapPos K.MAP_GAME_SCALE)
      = NavmapTileType.WALKABLE)

/-- `AGGRO_RANGE = network::MAP_TILE_SIZE * 4.0f` (NetworkObjectUpdater.cpp). -/
def AGGRO_RANGE (K : NetConstants) : ℝ := K.MAP_TILE_SIZE * 4

/-- `NPC_LOITERING_TIMER_SECS` (NetworkObjectUpdater.cpp). -/
def NPC_LOITERING_TIMER_SECS : ℝ := 5

/-- `NPC_ATTACK_ANIMATION_TIMER_SECS` (NetworkObjectUpdater.cpp). -/
noncomputable def NPC_ATTACK_ANIMATION_TIMER_SECS : ℝ := 1 / 2

/-- `NPC_PATH_RECALCULATION_SECS` (NetworkObjectUpdater.cpp). -/
noncomputable def NPC_PATH_RECALCULATION_SECS : ℝ := 1 / 20

/-- An `mNPCToTargetEntries` entry (NetworkObjectUpdater.h): the chased
object id and the path-recalculation countdown. -/
structure TargetEntry where
  mTargetObjectId : ℕ
  mPathRecalculationTimer : ℝ

/-- The `NetworkObjectUpdater` state: its `PathController`, the NPC target
entries, and the events dispatched so far through the process-wide bus
(recorded in dispatch order). -/
structure UpdaterState where
  pc : PCState
  mNPCToTargetEntries : ℕ → Option TargetEntry
  events : List GameEvent

namespace UpdaterState

/-- `NetworkObjectUpdater::OnObjectDestroyedEvent` (NetworkObjectUpdater.cpp,
lines 50-65): clears the destroyed id's path, erases its own target entry,
and erases every entry whose target equals the destroyed id. -/
def OnObjectDestroyedEvent (st : UpdaterState) (destroyedId : ℕ) : UpdaterState :=
  { st with
    pc := st.pc.ClearObjectPath destroyedId
    mNPCToTargetEntries := fun k =>
      if k = destroyedId then none
      else match st.mNPCToTargetEntries k with
        | some e => if e.mTargetObjectId = destroyedId then none else some e
        | none => none }

end UpdaterState

/-- The `mObjectIdsPerMap` rebuild in
`NetworkObjectUpdater::PerformPreUpdateSetup`: group the object ids of the
tick's object table by current map, preserving table iteration order. -/
def buildIdsPerMap (objectData : List (ℕ × ObjectData)) : String → List ℕ :=
  objectData.foldl
    (fun m p s => if s = GetCurrentMapString p.2 then m s ++ [p.1] else m s)
    (fun _ => [])

/-- `NetworkObjectUpdater::PerformPreUpdateSetup` (NetworkObjectUpdater.cpp,
lines 69-79): drains the path controller's results, then rebuilds the
per-map id index from the given object table. -/
def PerformPreUpdateSetup (st : UpdaterState) (objectData : List (ℕ × ObjectData)) :
    UpdaterState × (String → List ℕ) :=
  ({ st with pc := st.pc.Update }, buildIdsPerMap objectData)

/-- The value that survives the drain loop for object id `i`: the path of
the last non-empty result for `i` in the queue, if any.  (Specification
side of the `PathController::Update` characterization.) -/
def lastStoredResult (results : List PathFindingResult) (i : ℕ) :
    Option (List Vec3) :=
  results.foldl
    (fun acc r => if 0 < r.mPath.length ∧ r.mObjectId = i then some r.mPath else acc)
    none

/-- The collaborators a `NetworkObjectUpdater` call reads: the global
constants, the two `net_common` helpers that are not among the provided
sources (modelled as explicit function parameters), the borrowed tick
object table (`mTickObjectData`, split into the `count()` test and the
`at()` access), the per-map id index, and the map repository accessors. -/
structure UpdaterEnv where
  K : NetConstants
  vecToFacingDirection : Vec3 → FacingDirection
  CollidersIntersect : ObjectData → ObjectData → Bool
  tickHas : ℕ → Bool
  tickObjs : ℕ → ObjectData
  idsPerMap : String → List ℕ
  metaOf : String → MapMetaData
  navOf : String → Navmap

/-- The scan loop of `NetworkObjectUpdater::FindValidTarget`
(NetworkObjectUpdater.cpp, lines 284-332): walk the ids in order; skip
self, skip when own faction is NEUTRAL, skip candidates that are neither
PLAYER nor NPC, skip same faction, skip when farther than `AGGRO_RANGE`,
skip when not in line of sight; the first survivor wins, 0 when none. -/
noncomputable def findValidTargetScan (E : UpdaterEnv) (o : ObjectData) (dtMillis : ℝ)
    (mapPos : Vec2) (nm : Navmap) : List ℕ → ℕ
  | [] => 0
  | id :: rest =>
    if id = o.objectId then
      findValidTargetScan E o dtMillis mapPos nm rest
    else if o.objectFaction = ObjectFaction.NEUTRAL then
      findValidTargetScan E o dtMillis mapPos nm rest
    else if (E.tickObjs id).objectType ≠ ObjectType.PLAYER
        ∧ (E.tickObjs id).objectType ≠ ObjectType.NPC then
      findValidTargetScan E o dtMillis mapPos nm rest
    else if o.objectFaction = (E.tickObjs id).objectFaction then
      findValidTargetScan E o dtMillis mapPos nm rest
    else if Vec3.dist o.position
        ⟨(E.tickObjs id).position.x, (E.tickObjs id).position.y, o.position.z⟩
        > AGGRO_RANGE E.K then
      findValidTargetScan E o dtMillis mapPos nm rest
    else if IsTargetInLOS E.K o (E.tickObjs id) nm mapPos dtMillis = false then
      findValidTargetScan E o dtMillis mapPos nm rest
    else
      id

/-- `NetworkObjectUpdater::FindValidTarget`: the scan applied to
`mObjectIdsPerMap.at(currentMap)`. -/
noncomputable def FindValidTarget (E : UpdaterEnv) (o : ObjectData) (dtMillis : ℝ)
    (currentMap : String) (mapPos : Vec2) (nm : Navmap) : ℕ :=
  findValidTargetScan E o dtMillis mapPos nm (E.idsPerMap currentMap)

/-- The movement phase of `NetworkObjectUpdater::UpdateNPCPath`
(NetworkObjectUpdater.cpp, lines 227-250): with `v` to the front waypoint
and `step = speed * dtMillis`, either advance by `normalize(v) * step`, or
snap to the waypoint, zero the velocity, pop it, and — when the path
becomes empty — clear the path and return to IDLE; facing is set from `v`
in both cases.  Returns the updated object and path-controller state. -/
noncomputable def UpdateNPCPathMove (pc : PCState) (o : ObjectData) (dtMillis : ℝ)
    (vecToFacing : Vec3 → FacingDirection) : ObjectData × PCState :=
  let path := pc.GetPath o.objectId
  let vecToTarget := Vec3.sub (path.headD Vec3.zero) o.position
  let distance := Vec3.length vecToTarget
  let step := o.speed * dtMillis
  let afterMove : ObjectData × PCState :=
    if distance > step then
      let vel := Vec3.smul step (Vec3.normalize vecToTarget)
      ({ o with velocity := vel, position := Vec3.add o.position vel }, pc)
    else
      let o' := { o with position := path.headD Vec3.zero, velocity := Vec3.zero }
      let rest := path.tail
      if rest.isEmpty then
        ({ o' with objectState := ObjectState.IDLE }, pc.ClearObjectPath o.objectId)
      else
        (o', { pc with mPaths := fun i =>
                if i = o.objectId then some rest else pc.mPaths i })
  ({ afterMove.1 with facingDirection := vecToFacing vecToTarget }, afterMove.2)

/-- The trailing block of `NetworkObjectUpdater::UpdateNPCPath` (lines
275-279): run the map-transition check and kill the path when it reports a
change. -/
noncomputable def npcPathMapChangeTail (E : UpdaterEnv) (st2 : UpdaterState)
    (o2 : ObjectData) (objId : ℕ) : UpdaterState × ObjectData :=
  let mc := CheckForMapChange E.K o2 (E.metaOf (GetCurrentMapString o2))
  if mc.2 = true then
    ({ st2 with pc := st2.pc.ClearObjectPath objId }, mc.1)
  else
    (st2, mc.1)

/-- `NetworkObjectUpdater::UpdateNPCPath` (NetworkObjectUpdater.cpp, lines
225-280): the movement phase, then — when a target entry exists — either
the melee-attack transition (timer elapsed, target alive, colliders
intersect) or the path-recalculation countdown, and finally the
map-transition check, which clears the path when it returns true. -/
noncomputable def UpdateNPCPath (E : UpdaterEnv) (st : UpdaterState) (o : ObjectData)
    (dtMillis : ℝ) (mapPos : Vec2) (nm : Navmap) : UpdaterState × ObjectData :=
  let entry := st.mNPCToTargetEntries o.objectId
  let moved := UpdateNPCPathMove st.pc o dtMillis E.vecToFacingDirection
  let o1 := moved.1
  let pc1 := moved.2
  let afterChase : UpdaterState × ObjectData :=
    match entry with
    | none => ({ st with pc := pc1 }, o1)
    | some e =>
      if o1.actionTimer < 0 ∧ E.tickHas e.mTargetObjectId = true
          ∧ E.CollidersIntersect (E.tickObjs e.mTargetObjectId) o1 = true then
        ({ st with
            pc := pc1.ClearObjectPath o.objectId
            events := st.events
              ++ [GameEvent.npcAttack o.objectId AttackType.MELEE ProjectileType.NONE] },
         { o1 with
            actionTimer := NPC_ATTACK_ANIMATION_TIMER_SECS
            objectState := ObjectState.MELEE_ATTACK })
      else
        let timer := e.mPathRecalculationTimer - dtMillis / 1000
        if timer < 0 then
          ({ st with
              pc := pc1.FindPath o1 (E.tickObjs e.mTargetObjectId) mapPos nm
              mNPCToTargetEntries := fun k =>
                if k = o.objectId then
                  some ⟨e.mTargetObjectId, timer + NPC_PATH_RECALCULATION_SECS⟩
                else st.mNPCToTargetEntries k },
           o1)
        else
          ({ st with
              pc := pc1
              mNPCToTargetEntries := fun k =>
                if k = o.objectId then some ⟨e.mTargetObjectId, timer⟩
                else st.mNPCToTargetEntries k },
           o1)
  npcPathMapChangeTail E afterChase.1 afterChase.2 o.objectId

/-- `NetworkObjectUpdater::UpdateNPC` (NetworkObjectUpdater.cpp, lines
122-221).  The velocity is zeroed on entry; IDLE NPCs follow their path or
scan for a target (falling back to the loitering timer, whose random
direction draw is the `rngDirection` input); RUNNING transitions straight
back to IDLE; MELEE_ATTACK re-attacks, re-chases or disengages once the
action timer elapses.  The action timer is decremented at the end.
(The loitering branch's `toNextPosition` vector is dead code in the source
and is not modelled.) -/
noncomputable def UpdateNPC (E : UpdaterEnv) (st : UpdaterState) (o : ObjectData)
    (dtMillis : ℝ) (rngDirection : FacingDirection) : UpdaterState × ObjectData :=
  let currentMap := GetCurrentMapString o
  let mapPos := (E.metaOf currentMap).mMapPosition
  let nm := E.navOf currentMap
  let o0 := { o with velocity := Vec3.zero }
  let afterSwitch : UpdaterState × ObjectData :=
    match o0.objectState with
    | ObjectState.IDLE =>
      if st.pc.DoesObjectHavePath o0.objectId = true then
        UpdateNPCPath E st o0 dtMillis mapPos nm
      else
        let newTargetId := FindValidTarget E o0 dtMillis currentMap mapPos nm
        if newTargetId ≠ 0 then
          let other := E.tickObjs newTargetId
          let direction := Vec3.normalize
            (Vec3.sub ⟨other.position.x, other.position.y, o0.position.z⟩ o0.position)
          ({ st with
              mNPCToTargetEntries := fun k =>
                if k = o0.objectId then
                  some ⟨newTargetId, NPC_PATH_RECALCULATION_SECS⟩
                else st.mNPCToTargetEntries k
              events := st.events ++ [GameEvent.npcAggro o0.objectId other.objectId]
              pc := st.pc.FindPath o0 other mapPos nm },
           { o0 with facingDirection := E.vecToFacingDirection direction })
        else if o0.actionTimer < 0 then
          let mapCoord := nm.GetNavmapCoord o0.position mapPos E.K.MAP_GAME_SCALE
          let coordNext : ℤ × ℤ :=
            match rngDirection with
            | FacingDirection.SOUTH => (mapCoord.1, mapCoord.2 + 1)
            | FacingDirection.NORTH => (mapCoord.1, mapCoord.2 - 1)
            | FacingDirection.WEST => (mapCoord.1 - 1, mapCoord.2)
            | FacingDirection.EAST => (mapCoord.1 + 1, mapCoord.2)
            | FacingDirection.NORTH_WEST => (mapCoord.1 - 1, mapCoord.2 - 1)
            | FacingDirection.NORTH_EAST => (mapCoord.1 + 1, mapCoord.2 - 1)
            | FacingDirection.SOUTH_WEST => (mapCoord.1 - 1, mapCoord.2 + 1)
            | FacingDirection.SOUTH_EAST => (mapCoord.1 + 1, mapCoord.2 + 1)
          if nm.GetNavmapTileAt coordNext = NavmapTileType.WALKABLE then
            let targetPosition := nm.GetMapPositionFromNavmapCoord coordNext mapPos
              E.K.MAP_GAME_SCALE o0.position.z
            ({ st with pc := st.pc.SetObjectTargetPosition o0.objectId targetPosition },
             { o0 with
                actionTimer := NPC_LOITERING_TIMER_SECS
                facingDirection := rngDirection })
          else
            (st, { o0 with actionTimer := NPC_LOITERING_TIMER_SECS })
        else
          (st, o0)
    | ObjectState.RUNNING =>
      (st, { o0 with objectState := ObjectState.IDLE })
    | ObjectState.MELEE_ATTACK =>
      if o0.actionTimer < 0 then
        match st.mNPCToTargetEntries o0.objectId with
        | none => (st, { o0 with objectState := ObjectState.IDLE })
        | some e =>
          if E.CollidersIntersect (E.tickObjs e.mTargetObjectId) o0 = false then
            ({ st with pc := st.pc.FindPath o0 (E.tickObjs e.mTargetObjectId) mapPos nm },
             { o0 with objectState := ObjectState.IDLE })
          else
            ({ st with events := st.events
                ++ [GameEvent.npcAttack o0.objectId AttackType.MELEE ProjectileType.NONE] },
             { o0 with actionTimer := NPC_ATTACK_ANIMATION_TIMER_SECS })
      else
        (st, o0)
  (afterSwitch.1,
   { afterSwitch.2 with actionTimer := afterSwitch.2.actionTimer - dtMillis / 1000 })

/-- `NetworkObjectUpdater::UpdateAttack` (NetworkObjectUpdater.cpp, lines
104-118): integrate the position, publish a geometry collision when a
projectile sits on a SOLID navmap tile, then the map-transition check. -/
noncomputable def UpdateAttack (E : UpdaterEnv) (st : UpdaterState) (o : ObjectData)
    (dtMillis : ℝ) : UpdaterState × ObjectData :=
  let o1 := { o with position := Vec3.add o.position (Vec3.smul dtMillis o.velocity) }
  let currentMap := GetCurrentMapString o1
  let mapPos := (E.metaOf currentMap).mMapPosition
  let nm := E.navOf currentMap
  let st1 :=
    if o1.attackType = AttackType.PROJECTILE
        ∧ nm.GetNavmapTileAt (nm.GetNavmapCoord o1.position mapPos E.K.MAP_GAME_SCALE)
            = NavmapTileType.SOLID then
      { st with events := st.events ++ [GameEvent.networkObjectCollision o1.objectId 0] }
    else st
  (st1, (CheckForMapChange E.K o1 (E.metaOf currentMap)).1)

/-- `NetworkObjectUpdater::UpdateNetworkObject`: dispatch on the object
type; only ATTACK and NPC objects are advanced by the updater. -/
noncomputable def UpdateNetworkObject (E : UpdaterEnv) (st : UpdaterState)
    (o : ObjectData) (dtMillis : ℝ) (rngDirection : FacingDirection) :
    UpdaterState × ObjectData :=
  match o.objectType with
  | ObjectType.ATTACK => UpdateAttack E st o dtMillis
  | ObjectType.NPC => UpdateNPC E st o dtMillis rngDirection
  | _ => (st, o)

/-- Specification-side characterization of a valid aggro candidate: every
filter of the `FindValidTarget` scan, stated positively. -/
noncomputable def ValidAggroCandidate (E : UpdaterEnv) (o : ObjectData)
    (dtMillis : ℝ) (mapPos : Vec2) (nm : Navmap) (id : ℕ) : Prop :=
  id ≠ o.objectId
  ∧ o.objectFaction ≠ ObjectFaction.NEUTRAL
  ∧ ((E.tickObjs id).objectType = ObjectType.PLAYER
     ∨ (E.tickObjs id).objectType = ObjectType.NPC)
  ∧ o.objectFaction ≠ (E.tickObjs id).objectFaction
  ∧ Vec3.dist o.position
      ⟨(E.tickObjs id).position.x, (E.tickObjs id).position.y, o.position.z⟩
      ≤ AGGRO_RANGE E.K
  ∧ IsTargetInLOS E.K o (E.tickObjs id) nm mapPos dtMillis = true

/-- The `.substr(0, s.find(pat))` idiom used when loading names: the prefix
of the string before the first occurrence of the pattern (the whole string
when the pattern does not occur). -/
def prefixBeforePattern (s pat : String) : String := (s.splitOn pat).headD s

/-- One `map_transforms` / `map_connections` record of the manifest JSON:
the map key (of the form "name.json"), the transform, and the four
connection values. -/
structure ManifestEntry where
  key : String
  x : ℝ
  y : ℝ
  width : ℝ
  height : ℝ
  top : String
  right : String
  bottom : String
  left : String

/-- What opening and parsing `map_global_data.json` can yield: the file may
fail to open (the code silently skips loading), `nlohmann::json::parse` may
throw (the exception is not caught anywhere), or parsing succeeds with a
list of entries. -/
inductive ManifestSource where
  | missing
  | malformed
  | parsed (entries : List ManifestEntry)

/-- One file of the navmaps directory together with its PNG decode outcome:
`none` when `lodepng` reports an error (the code logs and skips the file),
otherwise the decoded tile grid. -/
structure NavmapFile where
  fileName : String
  decoded : Option (ℤ × ℤ → NavmapTileType)

/-- `NAVMAP_SIZE` (MapDataRepository.cpp). -/
def NAVMAP_SIZE : ℕ := 128

/-- The repository contents after `MapDataRepository::LoadMapData`. -/
structure MapDataRepositoryState where
  mMapMetaData : List (String × MapMetaData)
  mNavmaps : List (String × Navmap)
  mMapQuadtrees : List String

/-- The per-entry construction of `MapDataRepository::LoadMapMetaData`:
strip the ".json" suffix from the key and all four connection values, and
build the `MapMetaData` record. -/
def metaOfEntries (entries : List ManifestEntry) : List (String × MapMetaData) :=
  entries.map fun e =>
    (prefixBeforePattern e.key ".json",
     { mMapDimensions := ⟨e.width, e.height⟩
       mMapPosition := ⟨e.x, e.y⟩
       mMapConnections := fun d =>
         match d with
         | MapConnectionDirection.NORTH => prefixBeforePattern e.top ".json"
         | MapConnectionDirection.EAST => prefixBeforePattern e.right ".json"
         | MapConnectionDirection.SOUTH => prefixBeforePattern e.bottom ".json"
         | MapConnectionDirection.WEST => prefixBeforePattern e.left ".json" })

/-- `MapDataRepository::LoadMapMetaData` (MapDataRepository.cpp, lines
68-102): a file that fails to open is silently skipped (the map table
stays empty and only a count of 0 is logged); a parse failure propagates
out of the function as an uncaught exception (`Except.error`); otherwise
every manifest entry is loaded.  No error kind is produced for the
missing-file case. -/
def LoadMapMetaData (src : ManifestSource) :
    Except Unit (List (String × MapMetaData)) :=
  match src with
  | ManifestSource.missing => Except.ok []
  | ManifestSource.malformed => Except.error ()
  | ManifestSource.parsed entries => Except.ok (metaOfEntries entries)

/-- `MapDataRepository::LoadNavmapData` (MapDataRepository.cpp, lines
106-139): every file that decodes is added under its name with the
"_navmap.png" suffix stripped; a decode failure is logged and the file is
skipped; the function never fails and never compares counts.  (The
modelled navmap's `mapDimension` is the conversion parameter of §4.1,
fixed to 1 here.) -/
def LoadNavmapData (files : List NavmapFile) : List (String × Navmap) :=
  files.filterMap fun f =>
    f.decoded.map fun tiles =>
      (prefixBeforePattern f.fileName "_navmap.png",
       { size := NAVMAP_SIZE, mapDimension := 1, tile := tiles })

/-- `MapDataRepository::LoadMapData`: metadata, then navmaps, then one
quadtree per known map.  The only failure that can escape is the
manifest parse exception. -/
def LoadMapData (manifest : ManifestSource) (files : List NavmapFile) :
    Except Unit MapDataRepositoryState :=
  match LoadMapMetaData manifest with
  | Except.error e => Except.error e
  | Except.ok meta =>
      Except.ok ⟨meta, LoadNavmapData files, meta.map Prod.fst⟩

/-- How `main` (the tick-engine main.cpp) can leave its startup phase:
missing asset-directory argument (returns -1), an uncaught exception
from the manifest parse (terminates the process), ENet host creation
failure (EXIT_FAILURE), or entry into the main loop. -/
inductive StartupOutcome where
  | noAssetDirectory
  | abortedByException
  | hostCreationFailed
  | entersMainLoop (repo : MapDataRepositoryState)

/-- The startup phase of `main` (tick-engine main.cpp, lines 114-203):
check the asset-directory argument, load the map data, create the ENet
host, then enter the main loop unconditionally — nothing inspects the
loaded counts. -/
def serverStartup (hasAssetDir : Bool) (manifest : ManifestSource)
    (files : List NavmapFile) (hostOk : Bool) : StartupOutcome :=
  if hasAssetDir = false then StartupOutcome.noAssetDirectory
  else
    match LoadMapData manifest files with
    | Except.error _ => StartupOutcome.abortedByException
    | Except.ok repo =>
        if hostOk = false then StartupOutcome.hostCreationFailed
        else StartupOutcome.entersMainLoop repo

/-- Whether a startup outcome reached the main loop. -/
def entersMain : StartupOutcome → Bool
  | StartupOutcome.entersMainLoop _ => true
  | _ => false

/-- The number of loaded map-metadata entries of an outcome (0 when the
main loop was not reached). -/
def startupMetaCount : StartupOutcome → ℕ
  | StartupOutcome.entersMainLoop repo => repo.mMapMetaData.length
  | _ => 0

/-- The number of loaded navmaps of an outcome (0 when the main loop was
not reached). -/
def startupNavmapCount : StartupOutcome → ℕ
  | StartupOutcome.entersMainLoop repo => repo.mNavmaps.length
  | _ => 0

/-- A one-map manifest. -/
def fxManifestOneMap : ManifestSource :=
  ManifestSource.parsed
    [⟨"forest_1.json", 0, 0, 2, 2, "None", "forest_2.json", "None", "None"⟩]

/-- A navmap directory whose single PNG fails to decode. -/
def fxBadNavmapFiles : List NavmapFile := [⟨"forest_1_navmap.png", none⟩]

/-- `WORLD_MAP_SCALE` (tick-engine main.cpp). -/
def WORLD_MAP_SCALE : ℝ := 4

/-- `PLAYER_BASE_SPEED` (tick-engine main.cpp). -/
noncomputable def PLAYER_BASE_SPEED : ℝ := 3 / 10000

/-- `FAST_MELEE_CHARGE_TIME_SECS` (tick-engine main.cpp). -/
noncomputable def FAST_MELEE_CHARGE_TIME_SECS : ℝ := 3 / 10

/-- `FAST_MELEE_SLASH_TIME_SECS` (tick-engine main.cpp). -/
noncomputable def FAST_MELEE_SLASH_TIME_SECS : ℝ := 3 / 10

/-- The two ENet channels. -/
inductive Channel where
  | RELIABLE | UNRELIABLE
deriving DecidableEq

/-- The broadcast messages the tick engine emits (payloads reduced to the
fields the claims inspect). -/
inductive OutMessage where
  | objectCreated (o : ObjectData)
  | objectDestroyed (objectId : ℕ)
  | objectStateUpdate (o : ObjectData)

/-- The mutable state of the tick-engine main loop: the object table, the
per-NPC loiter target tiles, the pending attack spawns
(`id ↦ (object, seconds until spawn)` flattened to a list), the lifetime
timers, the removal list, the messages broadcast so far, and the per-map
quadtree contents. -/
structure TickState where
  objectDataMap : List (ℕ × ObjectData)
  npcNextTiles : ℕ → Option (ℤ × ℤ)
  pendingObjectsToSpawn : List (ℕ × ObjectData × ℝ)
  tempObjectTTL : ℕ → Option ℝ
  tempObjectsToRemove : List ℕ
  broadcasts : List (OutMessage × Channel)
  quadtrees : String → List (ℕ × Vec3 × Vec3)

/-- The collaborators of the tick engine: the (missing `net_common`)
`MAP_TILE_SIZE` constant, the map repository accessors, and the random
direction drawn for an NPC's loiter step. -/
structure TickEnv where
  mapTileSize : ℝ
  metaOf : String → MapMetaData
  navOf : String → Navmap
  rngDir : ℕ → FacingDirection

/-- The tick-engine main.cpp's own `CheckForMapChange` (lines 39-63): the
same edge selection as the updater's, at `WORLD_MAP_SCALE`, with no return
value. -/
noncomputable def checkForMapChangeVoid (o : ObjectData) (meta : MapMetaData) :
    ObjectData :=
  (CheckForMapChange ⟨WORLD_MAP_SCALE, 0⟩ o meta).1

/-- `SetColliderData` (tick-engine main.cpp, lines 68-108); assumes the
relevant object types have been set. -/
noncomputable def SetColliderData (o : ObjectData) : ObjectData :=
  match o.objectType with
  | ObjectType.PLAYER =>
      { o with colliderData := ⟨ColliderType.RECTANGLE, ⟨1 / 2, 4 / 5⟩⟩ }
  | ObjectType.NPC =>
      { o with colliderData := ⟨ColliderType.RECTANGLE, ⟨4 / 5, 4 / 5⟩⟩ }
  | ObjectType.ATTACK =>
      match o.attackType with
      | AttackType.PROJECTILE =>
          { o with colliderData := ⟨ColliderType.CIRCLE, ⟨1, 1⟩⟩ }
      | AttackType.MELEE =>
          { o with colliderData := ⟨ColliderType.CIRCLE, ⟨4 / 5, 4 / 5⟩⟩ }
      | AttackType.NONE => o
  | ObjectType.STATIC => o

/-- The melee spawn offset of the `BeginAttackRequest` handler (tick-engine
main.cpp, lines 332-377), in multiples of `MAP_TILE_SIZE`. -/
noncomputable def meleeSpawnPosition (tileSize : ℝ) (p : Vec3)
    (facing : FacingDirection) : Vec3 :=
  match facing with
  | FacingDirection.SOUTH => ⟨p.x, p.y - tileSize * (4 / 5), p.z⟩
  | FacingDirection.NORTH => ⟨p.x, p.y + tileSize * (4 / 5), p.z⟩
  | FacingDirection.WEST => ⟨p.x - tileSize * (1 / 2), p.y, p.z⟩
  | FacingDirection.EAST => ⟨p.x + tileSize * (1 / 2), p.y, p.z⟩
  | FacingDirection.NORTH_WEST =>
      ⟨p.x - tileSize * (3 / 10), p.y + tileSize * (3 / 5), p.z⟩
  | FacingDirection.NORTH_EAST =>
      ⟨p.x + tileSize * (3 / 10), p.y + tileSize * (3 / 5), p.z⟩
  | FacingDirection.SOUTH_WEST =>
      ⟨p.x - tileSize * (3 / 10), p.y - tileSize * (3 / 5), p.z⟩
  | FacingDirection.SOUTH_EAST =>
      ⟨p.x + tileSize * (3 / 10), p.y - tileSize * (3 / 5), p.z⟩

/-- The MELEE branch of the `BeginAttackRequest` handler (tick-engine
main.cpp, lines 302-390): build the ATTACK object at the facing-specific
offset, pend its spawn with `FAST_MELEE_CHARGE_TIME_SECS`, and
pre-register its lifetime of `FAST_MELEE_SLASH_TIME_SECS` (the TTL will
not be decremented until the object is committed to the object table). -/
noncomputable def beginMeleeAttack (E : TickEnv) (st : TickState)
    (attacker : ObjectData) (newId : ℕ) (projType : ProjectileType) : TickState :=
  let objectData : ObjectData :=
    SetCurrentMap
      (SetColliderData
        { objectId := newId
          parentObjectId := attacker.objectId
          objectType := ObjectType.ATTACK
          attackType := AttackType.MELEE
          projectileType := projType
          position := meleeSpawnPosition E.mapTileSize attacker.position
            attacker.facingDirection
          velocity := Vec3.zero
          speed := 0
          facingDirection := attacker.facingDirection
          objectState := ObjectState.IDLE
          objectFaction := attacker.objectFaction
          colliderData := ⟨ColliderType.RECTANGLE, ⟨0, 0⟩⟩
          objectScale := 1 / 8
          actionTimer := 0
          currentMap := "" })
      (GetCurrentMapString attacker)
  { st with
    pendingObjectsToSpawn :=
      st.pendingObjectsToSpawn ++ [(newId, objectData, FAST_MELEE_CHARGE_TIME_SECS)]
    tempObjectTTL := fun i =>
      if i = newId then some FAST_MELEE_SLASH_TIME_SECS else st.tempObjectTTL i }

/-- ATTACK branch of the tick-engine object loop (tick-engine main.cpp,
lines 437-462): integrate the position, zero the TTL on a SOLID tile, apply
the void map transition, then decrement the TTL and schedule removal at
≤ 0. -/
noncomputable def tickAttackStep (E : TickEnv) (st : TickState) (oid : ℕ)
    (o : ObjectData) (dtMillis : ℝ) : TickState × ObjectData :=
  let o1 : ObjectData := { o with position := Vec3.add o.position (Vec3.smul dtMillis o.velocity) }
  let currentMap := GetCurrentMapString o1
  let mapPos := (E.metaOf currentMap).mMapPosition
  let nm := E.navOf currentMap
  let ttl1 : ℕ → Option ℝ :=
    if nm.GetNavmapTileAt (nm.GetNavmapCoord o1.position mapPos WORLD_MAP_SCALE)
        = NavmapTileType.SOLID then
      fun i => if i = oid then some 0 else st.tempObjectTTL i
    else st.tempObjectTTL
  let o2 := checkForMapChangeVoid o1 (E.metaOf currentMap)
  match ttl1 oid with
  | some t =>
    let t' := t - dtMillis / 1000
    let ttl2 : ℕ → Option ℝ := fun i => if i = oid then some t' else ttl1 i
    if t' ≤ 0 then
      ({ st with
          tempObjectTTL := ttl2
          tempObjectsToRemove := st.tempObjectsToRemove ++ [oid] }, o2)
    else
      ({ st with tempObjectTTL := ttl2 }, o2)
  | none => ({ st with tempObjectTTL := ttl1 }, o2)

/-- Loitering stage of the NPC branch of the tick-engine object loop
(tick-engine main.cpp, lines 465-505): when no next tile is stored, the
action timer runs down and, on expiry, a random adjacent walkable tile is
picked, the timer resets to 5 and the NPC is set moving toward it. -/
noncomputable def tickNPCStage1 (E : TickEnv) (st : TickState) (oid : ℕ)
    (o : ObjectData) (dtMillis : ℝ) : TickState × ObjectData :=
  match st.npcNextTiles oid with
  | none =>
    let o1 : ObjectData := { o with actionTimer := o.actionTimer - dtMillis / 1000 }
    if o1.actionTimer < 0 then
      let o2 : ObjectData := { o1 with actionTimer := 5 }
      let currentMap := GetCurrentMapString o2
      let mapPos := (E.metaOf currentMap).mMapPosition
      let mapCoord := (E.navOf currentMap).GetNavmapCoord o2.position mapPos
        WORLD_MAP_SCALE
      let dirDraw := E.rngDir oid
      let coordNext : ℤ × ℤ :=
        match dirDraw with
        | FacingDirection.SOUTH => (mapCoord.1, mapCoord.2 + 1)
        | FacingDirection.NORTH => (mapCoord.1, mapCoord.2 - 1)
        | FacingDirection.WEST => (mapCoord.1 - 1, mapCoord.2)
        | FacingDirection.EAST => (mapCoord.1 + 1, mapCoord.2)
        | FacingDirection.NORTH_WEST => (mapCoord.1 - 1, mapCoord.2 - 1)
        | FacingDirection.NORTH_EAST => (mapCoord.1 + 1, mapCoord.2 - 1)
        | FacingDirection.SOUTH_WEST => (mapCoord.1 - 1, mapCoord.2 + 1)
        | FacingDirection.SOUTH_EAST => (mapCoord.1 + 1, mapCoord.2 + 1)
      let toNext : Vec3 :=
        match dirDraw with
        | FacingDirection.SOUTH => ⟨0, -1, 0⟩
        | FacingDirection.NORTH => ⟨0, 1, 0⟩
        | FacingDirection.WEST => ⟨-1, 0, 0⟩
        | FacingDirection.EAST => ⟨1, 0, 0⟩
        | FacingDirection.NORTH_WEST => ⟨-1, 1, 0⟩
        | FacingDirection.NORTH_EAST => ⟨1, 1, 0⟩
        | FacingDirection.SOUTH_WEST => ⟨-1, -1, 0⟩
        | FacingDirection.SOUTH_EAST => ⟨1, -1, 0⟩
      if (E.navOf currentMap).GetNavmapTileAt coordNext
          = NavmapTileType.WALKABLE then
        ({ st with npcNextTiles := fun i =>
              if i = oid then some coordNext else st.npcNextTiles i },
         { o2 with
            facingDirection := dirDraw
            velocity := Vec3.smul o2.speed (Vec3.normalize toNext) })
      else
        (st, o2)
    else
      (st, o1)
  | some _ => (st, o)

/-- Movement and arrival stage of the NPC branch of the tick-engine object
loop (tick-engine main.cpp, lines 506-520): integrate the velocity, clear
the stored next tile and stop when the NPC has entered it, then apply the
void map change. -/
noncomputable def tickNPCArrive (E : TickEnv) (st1 : TickState) (oid : ℕ)
    (oA : ObjectData) (dtMillis : ℝ) : TickState × ObjectData :=
  let oB : ObjectData := { oA with position := Vec3.add oA.position (Vec3.smul dtMillis oA.velocity) }
  let currentMap := GetCurrentMapString oB
  let mapPos := (E.metaOf currentMap).mMapPosition
  let arrived : TickState × ObjectData :=
    match st1.npcNextTiles oid with
    | some tile =>
      if (E.navOf currentMap).GetNavmapCoord oB.position mapPos WORLD_MAP_SCALE
          = tile then
        ({ st1 with npcNextTiles := fun i =>
              if i = oid then none else st1.npcNextTiles i },
         { oB with velocity := Vec3.zero })
      else
        (st1, oB)
    | none => (st1, oB)
  (arrived.1, checkForMapChangeVoid arrived.2 (E.metaOf currentMap))

/-- NPC branch of the tick-engine object loop: loiter stage followed by
the movement/arrival stage. -/
noncomputable def tickNPCStep (E : TickEnv) (st : TickState) (oid : ℕ)
    (o : ObjectData) (dtMillis : ℝ) : TickState × ObjectData :=
  let stage1 := tickNPCStage1 E st oid o dtMillis
  tickNPCArrive E stage1.1 oid stage1.2 dtMillis

/-- One iteration of the main object update loop (tick-engine main.cpp,
lines 432-520), for the entry `(oid, o)`: dispatch on the object type;
other types than ATTACK and NPC are untouched. -/
noncomputable def tickObjectStep (E : TickEnv) (st : TickState) (oid : ℕ)
    (o : ObjectData) (dtMillis : ℝ) : TickState × ObjectData :=
  match o.objectType with
  | ObjectType.ATTACK => tickAttackStep E st oid o dtMillis
  | ObjectType.NPC => tickNPCStep E st oid o dtMillis
  | _ => (st, o)

/-- One iteration of the main object loop including the write-back into the
object table and the quadtree fill (tick-engine main.cpp, lines 432-525). -/
noncomputable def tickObjectFold (E : TickEnv) (dtMillis : ℝ) (acc : TickState)
    (p : ℕ × ObjectData) : TickState :=
  let r := tickObjectStep E acc p.1 p.2 dtMillis
  let o' := r.2
  { r.1 with
    objectDataMap := (r.1.objectDataMap.map fun q => if q.1 = p.1 then (q.1, o') else q)
    quadtrees := fun m =>
      if m = GetCurrentMapString o' then
        r.1.quadtrees m
          ++ [(p.1, o'.position,
               ⟨o'.colliderData.colliderRelativeDimentions.x * o'.objectScale,
                o'.colliderData.colliderRelativeDimentions.y * o'.objectScale, 1⟩)]
      else r.1.quadtrees m }

/-- `objectDataMap[id] = obj` on the modelled association list: replace the
entry when the key exists, append otherwise. -/
def upsertObject (l : List (ℕ × ObjectData)) (id : ℕ) (o : ObjectData) :
    List (ℕ × ObjectData) :=
  if l.any fun q => q.1 = id then
    l.map fun q => if q.1 = id then (q.1, o) else q
  else
    l ++ [(id, o)]

/-- One iteration of the pending-spawn loop (tick-engine main.cpp, lines
528-550): decrement `spawn_in` by `dt/1000`; at ≤ 0 commit the object to
the table, broadcast `ObjectCreated` reliably and drop the entry,
otherwise keep it with the decremented countdown. -/
noncomputable def tickPendingFold (dtMillis : ℝ) (acc : TickState)
    (p : ℕ × ObjectData × ℝ) : TickState :=
  let timeToSpawn := p.2.2 - dtMillis / 1000
  if timeToSpawn ≤ 0 then
    { acc with
      objectDataMap := upsertObject acc.objectDataMap p.2.1.objectId p.2.1
      broadcasts := acc.broadcasts ++ [(OutMessage.objectCreated p.2.1, Channel.RELIABLE)] }
  else
    { acc with pendingObjectsToSpawn :=
        acc.pendingObjectsToSpawn ++ [(p.1, p.2.1, timeToSpawn)] }

/-- One iteration of the removal loop (tick-engine main.cpp, lines
553-563): broadcast `ObjectDestroyed` reliably and erase the lifetime
entry, the object, and its loiter tile. -/
noncomputable def tickRemoveFold (acc : TickState) (rid : ℕ) : TickState :=
  { acc with
    broadcasts := acc.broadcasts ++ [(OutMessage.objectDestroyed rid, Channel.RELIABLE)]
    tempObjectTTL := fun i => if i = rid then none else acc.tempObjectTTL i
    objectDataMap := acc.objectDataMap.filter fun q => q.1 ≠ rid
    npcNextTiles := fun i => if i = rid then none else acc.npcNextTiles i }

/-- The position-integrated ATTACK object at the top of the ATTACK branch
(tick-engine main.cpp, line 439). -/
def attackMoved (o : ObjectData) (dtMillis : ℝ) : ObjectData :=
  { o with position := Vec3.add o.position (Vec3.smul dtMillis o.velocity) }

/-- Whether the object stands on a SOLID navmap tile of its current map
(the condition that zeroes an attack's TTL, tick-engine main.cpp,
lines 441-447). -/
def attackOnSolidTile (E : TickEnv) (o1 : ObjectData) : Prop :=
  (E.navOf (GetCurrentMapString o1)).GetNavmapTileAt
    ((E.navOf (GetCurrentMapString o1)).GetNavmapCoord o1.position
      ((E.metaOf (GetCurrentMapString o1)).mMapPosition) WORLD_MAP_SCALE)
    = NavmapTileType.SOLID

/-- Phase 0 of a simulation tick: clear the quadtrees. -/
def tickStage0 (st : TickState) : TickState := { st with quadtrees := fun _ => [] }

/-- Phase 1 of a simulation tick: the object update loop over the object
table (tick-engine main.cpp, lines 432-525). -/
noncomputable def tickStage1 (E : TickEnv) (st : TickState) (dtMillis : ℝ) :
    TickState :=
  (tickStage0 st).objectDataMap.foldl (tickObjectFold E dtMillis) (tickStage0 st)

/-- Phases 2-3 of a simulation tick: clear the pending list, then run the
pending-spawn loop over its previous contents (tick-engine main.cpp, lines
527-550). -/
noncomputable def tickStage3 (E : TickEnv) (st : TickState) (dtMillis : ℝ) :
    TickState :=
  (tickStage1 E st dtMillis).pendingObjectsToSpawn.foldl (tickPendingFold dtMillis)
    ({ tickStage1 E st dtMillis with pendingObjectsToSpawn := [] })

/-- Phase 4 of a simulation tick: the removal loop over the expired ids
(tick-engine main.cpp, lines 553-563). -/
noncomputable def tickStage4 (E : TickEnv) (st : TickState) (dtMillis : ℝ) :
    TickState :=
  (tickStage3 E st dtMillis).tempObjectsToRemove.foldl tickRemoveFold
    (tickStage3 E st dtMillis)

/-- One simulation tick (tick-engine main.cpp, lines 423-576): clear the
quadtrees, run the object update loop, materialize pending spawns, remove
expired objects (clearing the removal list), and broadcast one unreliable
snapshot per object. -/
noncomputable def serverTick (E : TickEnv) (st : TickState) (dtMillis : ℝ) :
    TickState :=
  let st4 := tickStage4 E st dtMillis
  { st4 with
    tempObjectsToRemove := []
    broadcasts :=
      st4.broadcasts
        ++ st4.objectDataMap.map fun q =>
            (OutMessage.objectStateUpdate q.2, Channel.UNRELIABLE) }

/-- A navmap cell keyed as `(row, col)`, mirroring `Node`'s `row`/`col`
fields in PathController.cpp. -/
def Cell : Type := ℤ × ℤ

instance : DecidableEq Cell := instDecidableEqProd

/-- The worker's A* bookkeeping: the open heap contents (as a list in push
order), the closed set, and the `nodes` table split into its allocated
keys (`known`) and the per-node `gCost` and `parent` fields
(PathController.cpp, lines 85-87). `hCost` is not stored: it is the fixed
Manhattan heuristic of the cell. -/
structure AStarState where
  openList : List Cell
  closed : List Cell
  g : Cell → ℕ
  parent : Cell → Option Cell
  known : List Cell

/-- The heuristic lambda (PathController.cpp, lines 106-109): Manhattan
distance between two cells. -/
def HeuristicLambda (a b : Cell) : ℕ :=
  (a.1 - b.1).natAbs + (a.2 - b.2).natAbs

/-- The f-cost `gCost + hCost` ordering the open heap
(PathController.cpp, `Node::fCost`). -/
def fCost (S : AStarState) (endCell c : Cell) : ℕ :=
  S.g c + HeuristicLambda c endCell

/-- `AddOrUpdateNode` (PathController.cpp, lines 111-125): if the node is
unallocated or the new g-cost beats the stored one, (re)allocate it, store
the g-cost and parent, and push it onto the open heap. -/
def addOrUpdateNode (c : Cell) (gNew : ℕ) (par : Option Cell)
    (S : AStarState) : AStarState :=
  if c ∉ S.known ∨ gNew < S.g c then
    { S with
      known := if c ∈ S.known then S.known else c :: S.known
      g := fun x => if x = c then gNew else S.g x
      parent := fun x => if x = c then par else S.parent x
      openList := S.openList ++ [c] }
  else S

/-- The element the heap pop returns: a minimal-f element of the open
list (ties and stale heap layering resolved to the earliest-pushed one;
the properties proved below do not depend on this choice). -/
def pickMinF (f : Cell → ℕ) : List Cell → Option Cell
  | [] => none
  | c :: cs =>
    match pickMinF f cs with
    | none => some c
    | some d => if f c ≤ f d then some c else some d

/-- The four expansion directions `(dRow, dCol)` (PathController.cpp,
line 157). -/
def astarDirections : List (ℤ × ℤ) := [(0, 1), (1, 0), (0, -1), (-1, 0)]

/-- The neighbor expansion of one popped node (PathController.cpp, lines
157-169): for each direction, if the neighbor is in bounds and WALKABLE,
`AddOrUpdateNode(newRow, newCol, current.gCost + 1, current)`. -/
def expandNeighbors (nm : Navmap) (cur : Cell) (gNew : ℕ)
    (S : AStarState) : AStarState :=
  astarDirections.foldl
    (fun acc d =>
      let nr := cur.1 + d.1
      let nc := cur.2 + d.2
      if 0 ≤ nr ∧ nr < (nm.GetSize : ℤ) ∧ 0 ≤ nc ∧ nc < (nm.GetSize : ℤ)
          ∧ nm.GetNavmapTileAt (nc, nr) = NavmapTileType.WALKABLE then
        addOrUpdateNode (nr, nc) gNew (some cur) acc
      else acc)
    S

/-- The reconstruction walk (PathController.cpp, lines 141-151): follow
parent pointers, collecting cells from the end node; the C++ `while
(node != nullptr)` loop is run with explicit fuel. -/
def chainWalk (par : Cell → Option Cell) : ℕ → Cell → List Cell
  | 0, _ => []
  | fuel + 1, c =>
    c :: (match par c with
          | none => []
          | some p => chainWalk par fuel p)

/-- The main A* loop (PathController.cpp, lines 129-170), run with
explicit fuel: pop a minimal-f node; skip it if already closed; close it;
if it is the end cell, reconstruct and return the raw cell chain
(end-to-start); otherwise expand its neighbors. `some none` is the
heap-emptied (unreachable) outcome; `none` is fuel exhaustion, which the
termination theorem rules out at `astarFuel`. -/
def aStarLoop (nm : Navmap) (endCell : Cell) :
    ℕ → AStarState → Option (Option (List Cell))
  | 0, _ => none
  | fuel + 1, S =>
    match pickMinF (fCost S endCell) S.openList with
    | none => some none
    | some cur =>
      let S' := { S with openList := S.openList.erase cur }
      if cur ∈ S.closed then
        aStarLoop nm endCell fuel S'
      else
        let S2 := { S' with closed := cur :: S'.closed }
        if cur = endCell then
          some (some (chainWalk S.parent (S.known.length + 1) cur))
        else
          aStarLoop nm endCell fuel (expandNeighbors nm cur (S2.g cur + 1) S2)

/-- Fuel that provably outlasts the loop's decreasing measure
`|open| + 5·(N² + 1 − |closed|)`. -/
def astarFuel (N : ℕ) : ℕ := 5 * (N * N + 1) + 2

/-- The start cell `(startCoord.y, startCoord.x)` of a task
(PathController.cpp, lines 92, 127). -/
noncomputable def astarStartCell (K : NetConstants) (task : PathFindingTask) : Cell :=
  let c := task.mNavmap.GetNavmapCoord task.mStartPosition task.mMapPosition
    K.MAP_GAME_SCALE
  (c.2, c.1)

/-- The end cell `(endCoord.y, endCoord.x)` of a task
(PathController.cpp, line 93). -/
noncomputable def astarEndCell (K : NetConstants) (task : PathFindingTask) : Cell :=
  let c := task.mNavmap.GetNavmapCoord task.mTargetPosition task.mMapPosition
    K.MAP_GAME_SCALE
  (c.2, c.1)

/-- The initial A* state: empty structures plus
`AddOrUpdateNode(startCoord.y, startCoord.x, 0, nullptr)`
(PathController.cpp, lines 102-104, 127). -/
noncomputable def astarInitState (K : NetConstants) (task : PathFindingTask) :
    AStarState :=
  addOrUpdateNode (astarStartCell K task) 0 none
    ⟨[], [], fun _ => 0, fun _ => none, []⟩

/-- The loop run of a task at the proven-sufficient fuel. -/
noncomputable def astarRun (K : NetConstants) (task : PathFindingTask) :
    Option (Option (List Cell)) :=
  aStarLoop task.mNavmap (astarEndCell K task)
    (astarFuel task.mNavmap.GetSize) (astarInitState K task)

/-- The world waypoint of a cell: the tile center at the start position's
z (PathController.cpp, line 147). -/
noncomputable def astarWorldPos (K : NetConstants) (task : PathFindingTask)
    (c : Cell) : Vec3 :=
  task.mNavmap.GetMapPositionFromNavmapCoord (c.2, c.1) task.mMapPosition
    K.MAP_GAME_SCALE task.mStartPosition.z

/-- `PathController::PathFindingWorker::FindPath` (PathController.cpp,
lines 83-181): same start/end tile returns the empty path; otherwise run
the loop; on success collect the world waypoints of the chain cells other
than the start tile (chain order is end-to-start) and reverse, so the
queue front is the first step away from the start; an emptied heap (and
the fuel outcome, which cannot occur at `astarFuel`) returns the empty
path. -/
noncomputable def FindPathWorker (K : NetConstants) (task : PathFindingTask) :
    PathFindingResult :=
  if task.mNavmap.GetNavmapCoord task.mStartPosition task.mMapPosition K.MAP_GAME_SCALE
      = task.mNavmap.GetNavmapCoord task.mTargetPosition task.mMapPosition K.MAP_GAME_SCALE then
    ⟨task.mObjectId, []⟩
  else
    match astarRun K task with
    | some (some chain) =>
      ⟨task.mObjectId,
       ((chain.filter fun c => c ≠ astarStartCell K task).map
          (astarWorldPos K task)).reverse⟩
    | _ => ⟨task.mObjectId, []⟩

/-- The N×N in-bounds cells `(row, col)` of a navmap of size N. -/
def inBoundsCells (N : ℕ) : List Cell :=
  (List.range N).flatMap fun r =>
    (List.range N).map fun c => (Int.ofNat r, Int.ofNat c)

/-- The loop's decreasing measure: heap size plus five budget units per
not-yet-closed cell. -/
def astarMeasure (N : ℕ) (S : AStarState) : ℕ :=
  S.openList.length + 5 * (N * N + 1 - S.closed.length)

/-- The loop invariant of the worker's A* state over a navmap of size N:
the closed set holds distinct known cells, the heap holds known cells,
known cells are the start or in bounds, the start is allocated with g-cost
0 and no parent, every other allocated cell has an allocated, adjacent
parent of strictly smaller g-cost, and g-costs are below the allocation
count. -/
structure AStarInv (N : ℕ) (start : Cell) (S : AStarState) : Prop where
  closed_nodup : S.closed.Nodup
  closed_known : S.closed ⊆ S.known
  open_known : S.openList ⊆ S.known
  known_bound : S.known ⊆ start :: inBoundsCells N
  start_known : start ∈ S.known
  g_start : S.g start = 0
  parent_start : S.parent start = none
  parent_link : ∀ c ∈ S.known, c ≠ start →
    ∃ p, S.parent c = some p ∧ p ∈ S.known ∧ S.g p < S.g c
      ∧ HeuristicLambda p c = 1
  g_lt : ∀ c ∈ S.known, S.g c < S.known.length

/-- Concrete constants for concrete runs: scale 4 (the tick engine's
`WORLD_MAP_SCALE`), tile size 1. -/
def fxK : NetConstants := ⟨4, 1⟩

/-- A constant facing-direction function standing in for the (missing)
`network::VecToFacingDirection` in concrete runs. -/
def fxFacing : Vec3 → FacingDirection := fun _ => FacingDirection.SOUTH

/-- A path controller whose only stored path is a single waypoint for
object 5. -/
def fxPathPC : PCState := ⟨fun i => if i = 5 then some [⟨3, 0, 0⟩] else none, [], []⟩

/-- A small all-walkable navmap. -/
def fxNm : Navmap := ⟨2, 2, fun _ => NavmapTileType.WALKABLE⟩

/-- A large map, so concrete runs never cross an edge. -/
def fxMetaBig : MapMetaData := ⟨⟨1000, 1000⟩, ⟨0, 0⟩, fun _ => "forest_2"⟩

/-- A chasing NPC with an elapsed action timer, standing at the origin. -/
def fxChaser : ObjectData :=
  { objectId := 5
    parentObjectId := 5
    objectType := ObjectType.NPC
    attackType := AttackType.NONE
    projectileType := ProjectileType.NONE
    position := ⟨0, 0, 0⟩
    velocity := Vec3.zero
    speed := 1
    facingDirection := FacingDirection.SOUTH
    objectState := ObjectState.IDLE
    objectFaction := ObjectFaction.EVIL
    colliderData := ⟨ColliderType.RECTANGLE, ⟨1, 1⟩⟩
    objectScale := 1
    actionTimer := -1
    currentMap := "forest_1" }

/-- An environment in which every object is alive, colliders always
intersect, and the world is one big walkable map. -/
def fxEnvTouch : UpdaterEnv :=
  { K := fxK
    vecToFacingDirection := fxFacing
    CollidersIntersect := fun _ _ => true
    tickHas := fun _ => true
    tickObjs := fun _ => fxChaser
    idsPerMap := fun _ => []
    metaOf := fun _ => fxMetaBig
    navOf := fun _ => fxNm }

/-- The updater state for the chase-to-melee run: object 5 follows a
one-waypoint path and chases target 2. -/
def fxChaseState : UpdaterState :=
  ⟨fxPathPC, fun k => if k = 5 then some ⟨2, 1⟩ else none, []⟩

/-- A concrete map whose EAST connection is the literal string "None"
(as stored verbatim from the manifest). -/
def fxMetaNoneEast : MapMetaData :=
  ⟨⟨2, 2⟩, ⟨0, 0⟩, fun d => match d with
    | MapConnectionDirection.EAST => "None"
    | _ => "forest_2"⟩

/-- A concrete object standing beyond the east edge of `fxMetaNoneEast`
(east edge at world x = 4, object at x = 100). -/
def fxObjEastOut : ObjectData :=
  { objectId := 1
    parentObjectId := 1
    objectType := ObjectType.NPC
    attackType := AttackType.NONE
    projectileType := ProjectileType.NONE
    position := ⟨100, 0, 0⟩
    velocity := Vec3.zero
    speed := 0
    facingDirection := FacingDirection.SOUTH
    objectState := ObjectState.IDLE
    objectFaction := ObjectFaction.EVIL
    colliderData := ⟨ColliderType.RECTANGLE, ⟨1, 1⟩⟩
    objectScale := 1
    actionTimer := 0
    currentMap := "forest_1" }

/-- A concrete waypoint. -/
def fxV : Vec3 := ⟨1, 2, 3⟩

/-- An updater state in which the worker has already produced a (stale)
non-empty path result for object 7, while no path is currently stored. -/
def fxStaleState : UpdaterState :=
  ⟨⟨fun _ => none, [], [⟨7, [fxV]⟩]⟩, fun _ => none, []⟩

/-- An EVIL NPC at the origin looking for prey. -/
def fxAggroNpc : ObjectData :=
  { objectId := 1
    parentObjectId := 1
    objectType := ObjectType.NPC
    attackType := AttackType.NONE
    projectileType := ProjectileType.NONE
    position := ⟨0, 0, 0⟩
    velocity := Vec3.zero
    speed := 4
    facingDirection := FacingDirection.SOUTH
    objectState := ObjectState.IDLE
    objectFaction := ObjectFaction.EVIL
    colliderData := ⟨ColliderType.RECTANGLE, ⟨1, 1⟩⟩
    objectScale := 1
    actionTimer := 3
    currentMap := "forest_1" }

/-- A GOOD player two units east of the origin. -/
def fxPrey : ObjectData :=
  { objectId := 2
    parentObjectId := 2
    objectType := ObjectType.PLAYER
    attackType := AttackType.NONE
    projectileType := ProjectileType.NONE
    position := ⟨2, 0, 0⟩
    velocity := Vec3.zero
    speed := 4
    facingDirection := FacingDirection.SOUTH
    objectState := ObjectState.RUNNING
    objectFaction := ObjectFaction.GOOD
    colliderData := ⟨ColliderType.RECTANGLE, ⟨1, 1⟩⟩
    objectScale := 1
    actionTimer := 0
    currentMap := "forest_1" }

/-- The environment of the aggro-acquisition run: the map holds exactly the
prey (object 2), everything else defaulting to the NPC itself. -/
def fxEnvAggro : UpdaterEnv :=
  { K := fxK
    vecToFacingDirection := fxFacing
    CollidersIntersect := fun _ _ => false
    tickHas := fun _ => true
    tickObjs := fun i => if i = 2 then fxPrey else fxAggroNpc
    idsPerMap := fun _ => [2]
    metaOf := fun _ => fxMetaBig
    navOf := fun _ => fxNm }

/-- An empty updater state. -/
def fxStEmpty : UpdaterState := ⟨⟨fun _ => none, [], []⟩, fun _ => none, []⟩

/-- A pending ATTACK spawn object for concrete ticks. -/
def fxSpawnObj : ObjectData := { fxChaser with objectId := 9, objectType := ObjectType.ATTACK }

/-- A tick-engine environment over the big walkable map. -/
def fxTickEnv : TickEnv := ⟨1, fun _ => fxMetaBig, fun _ => fxNm, fun _ => FacingDirection.SOUTH⟩

/-- A tick state whose only content is one pending spawn of `fxSpawnObj`
with one second left on its countdown. -/
def fxTickSt : TickState :=
  ⟨[], fun _ => none, [(7, fxSpawnObj, 1)], fun _ => none, [], [], fun _ => []⟩

end TinyMMO

namespace TinyMMO

/-- Folding the drain step over the result list with an arbitrary
accumulator is the fold from `none` with the accumulator as fallback. -/
theorem lastStored_foldl_acc (results : List PathFindingResult) (i : ℕ)
    (acc : Option (List Vec3)) :
    results.foldl
      (fun a r => if 0 < r.mPath.length ∧ r.mObjectId = i then some r.mPath else a)
      acc
    = match lastStoredResult results i with
      | some p => some p
      | none => acc := by
  induction results generalizing acc with
  | nil => rfl
  | cons r rs ih =>
    have hcons : lastStoredResult (r :: rs) i
        = rs.foldl
            (fun a r => if 0 < r.mPath.length ∧ r.mObjectId = i then some r.mPath else a)
            (if 0 < r.mPath.length ∧ r.mObjectId = i then some r.mPath else none) := rfl
    rw [List.foldl_cons, ih, hcons, ih]
    by_cases h : 0 < r.mPath.length ∧ r.mObjectId = i <;>
      cases hL : lastStoredResult rs i <;>
        simp [h, hL]

/-- The drained path map at id `i` equals the last non-empty result stored
for `i`, with the pre-drain entry as fallback. -/
theorem update_mPaths_eq (st : PCState) (i : ℕ) :
    st.Update.mPaths i
      = match lastStoredResult st.resultQueue i with
        | some p => some p
        | none => st.mPaths i := by
  show (st.resultQueue.foldl PCState.applyResult st.mPaths) i = _
  generalize st.resultQueue = rs
  generalize st.mPaths = paths
  induction rs generalizing paths with
  | nil => rfl
  | cons r t ih =>
    have hcons : lastStoredResult (r :: t) i
        = t.foldl
            (fun a r => if 0 < r.mPath.length ∧ r.mObjectId = i then some r.mPath else a)
            (if 0 < r.mPath.length ∧ r.mObjectId = i then some r.mPath else none) := rfl
    rw [List.foldl_cons, ih, hcons, lastStored_foldl_acc]
    cases hL : lastStoredResult t i with
    | some p => rfl
    | none =>
      by_cases hl : 0 < r.mPath.length
      · by_cases hi : r.mObjectId = i
        · simp [PCState.applyResult, hl, hi]
        · have hi2 : ¬ i = r.mObjectId := fun h2 => hi h2.symm
          simp [PCState.applyResult, hl, hi, hi2]
      · simp [PCState.applyResult, hl]

/-- C7: `PathController::Update` drains every currently available result;
a non-empty result path replaces the stored path for its object id, an
empty result is ignored and the previously stored path (if any) is kept.
Formally: the result queue is empty after the drain, and the stored path
for any id is the last non-empty result for that id when one exists, and
the pre-drain entry otherwise. -/
theorem claim_C7_update_drains_and_replaces (st : PCState) (i : ℕ) :
    st.Update.resultQueue = []
    ∧ st.Update.mPaths i
        = match lastStoredResult st.resultQueue i with
          | some p => some p
          | none => st.mPaths i :=
  ⟨rfl, update_mPaths_eq st i⟩

/-- C2 (counterexample): object 7 is destroyed while a non-empty result for
it is still in the result queue; the next per-tick drain
(`PerformPreUpdateSetup` → `PathController::Update`) stores that stale
result, so a path entry for the destroyed object DOES exist after the
drain — the drain performs no id liveness lookup. -/
theorem claim_C2_counterexample :
    (PerformPreUpdateSetup (fxStaleState.OnObjectDestroyedEvent 7) []).1.pc.mPaths 7
      = some [fxV]
    ∧ (PerformPreUpdateSetup (fxStaleState.OnObjectDestroyedEvent 7) []).1.pc.mPaths 7
      ≠ none := by
  have h1 : (PerformPreUpdateSetup (fxStaleState.OnObjectDestroyedEvent 7) []).1.pc.mPaths 7
      = some [fxV] := rfl
  exact ⟨h1, by rw [h1]; simp⟩

/-- C2 (amended): destruction clears the stored path and target entry at
destruction time, but the per-tick drain performs no liveness lookup: if
the result queue still holds a (stale) non-empty result for the destroyed
id, the drain re-creates a path entry for that id. -/
theorem claim_C2_amended (st : UpdaterState) (d : ℕ) (p : List Vec3)
    (objectData : List (ℕ × ObjectData))
    (hp : lastStoredResult st.pc.resultQueue d = some p) :
    (st.OnObjectDestroyedEvent d).pc.mPaths d = none
    ∧ (st.OnObjectDestroyedEvent d).mNPCToTargetEntries d = none
    ∧ (PerformPreUpdateSetup (st.OnObjectDestroyedEvent d) objectData).1.pc.mPaths d
        = some p := by
  refine ⟨by simp [UpdaterState.OnObjectDestroyedEvent, PCState.ClearObjectPath],
          by simp [UpdaterState.OnObjectDestroyedEvent], ?_⟩
  have h := update_mPaths_eq ((st.OnObjectDestroyedEvent d).pc) d
  have hq : (st.OnObjectDestroyedEvent d).pc.resultQueue = st.pc.resultQueue := rfl
  simp only [PerformPreUpdateSetup]
  rw [h, hq, hp]

/-- C2 (amended, witness): the concrete stale-result scenario. -/
theorem claim_C2_amended_witness :
    lastStoredResult fxStaleState.pc.resultQueue 7 = some [fxV]
    ∧ ((fxStaleState.OnObjectDestroyedEvent 7).pc.mPaths 7 = none
       ∧ (fxStaleState.OnObjectDestroyedEvent 7).mNPCToTargetEntries 7 = none
       ∧ (PerformPreUpdateSetup (fxStaleState.OnObjectDestroyedEvent 7) []).1.pc.mPaths 7
           = some [fxV]) :=
  ⟨rfl, claim_C2_amended fxStaleState 7 [fxV] [] rfl⟩

theorem checkForMapChange_eq (K : NetConstants) (o : ObjectData) (meta : MapMetaData) :
    CheckForMapChange K o meta
      = (if sidIsEmpty (selectNextMapName K.MAP_GAME_SCALE o meta) = false
            ∧ selectNextMapName K.MAP_GAME_SCALE o meta ≠ "None"
         then SetCurrentMap o (selectNextMapName K.MAP_GAME_SCALE o meta)
         else o,
         !sidIsEmpty (selectNextMapName K.MAP_GAME_SCALE o meta)) := rfl

/-- The concrete east-edge crossing selects the EAST connection "None". -/
theorem fxSelectsNone :
    selectNextMapName fxK.MAP_GAME_SCALE fxObjEastOut fxMetaNoneEast = "None" := by
  rw [selectNextMapName, if_pos]
  · rfl
  · show fxObjEastOut.position.x > _
    norm_num [fxObjEastOut, fxMetaNoneEast, fxK]

/-- C1 (counterexample): an object beyond the east edge of a map whose east
connection is the literal "None": `CheckForMapChange` leaves the current
map unchanged but returns `true` (the claim says it returns `false`),
because the return value is `!nextMapName.isEmpty()` and the literal
"None" has a nonzero string hash. -/
theorem claim_C1_counterexample :
    selectNextMapName fxK.MAP_GAME_SCALE fxObjEastOut fxMetaNoneEast = "None"
    ∧ (CheckForMapChange fxK fxObjEastOut fxMetaNoneEast).1.currentMap
        = fxObjEastOut.currentMap
    ∧ (CheckForMapChange fxK fxObjEastOut fxMetaNoneEast).2 ≠ false := by
  refine ⟨fxSelectsNone, ?_, ?_⟩
  · rw [checkForMapChange_eq, fxSelectsNone]
    rw [if_neg]
    rintro ⟨-, hne⟩
    exact hne rfl
  · rw [checkForMapChange_eq, fxSelectsNone]
    decide

/-- C1 (amended): crossing a map edge whose stored connection is the literal
"None" leaves `current_map` unchanged, but `CheckForMapChange` returns
`true`, not `false`: the return value reports merely that an edge was
crossed with a stored (nonzero-hash) name, not that a transition occurred.
Edge checks are tested mutually exclusively in the order east, west,
north, south (they are the nested if-else of `selectNextMapName`). -/
theorem claim_C1_map_change_none (K : NetConstants) (o : ObjectData)
    (meta : MapMetaData)
    (hNone : selectNextMapName K.MAP_GAME_SCALE o meta = "None") :
    (CheckForMapChange K o meta).1 = o
    ∧ (CheckForMapChange K o meta).2 = true := by
  constructor
  · rw [checkForMapChange_eq, hNone]
    rw [if_neg]
    rintro ⟨-, hne⟩
    exact hne rfl
  · rw [CheckForMapChange]
    simp only [hNone]
    decide

/-- C1 (amended, witness): the concrete east-edge "None" crossing. -/
theorem claim_C1_map_change_none_witness :
    selectNextMapName fxK.MAP_GAME_SCALE fxObjEastOut fxMetaNoneEast = "None"
    ∧ ((CheckForMapChange fxK fxObjEastOut fxMetaNoneEast).1 = fxObjEastOut
       ∧ (CheckForMapChange fxK fxObjEastOut fxMetaNoneEast).2 = true) := by
  have hsel : selectNextMapName fxK.MAP_GAME_SCALE fxObjEastOut fxMetaNoneEast = "None" := by
    rw [selectNextMapName, if_pos]
    · rfl
    · show fxObjEastOut.position.x > _
      norm_num [fxObjEastOut, fxMetaNoneEast, fxK]
  exact ⟨hsel, claim_C1_map_change_none fxK fxObjEastOut fxMetaNoneEast hsel⟩

/-- The movement phase never touches the action timer. -/
theorem updateNPCPathMove_actionTimer (pc : PCState) (o : ObjectData)
    (dtMillis : ℝ) (vtf : Vec3 → FacingDirection) :
    (UpdateNPCPathMove pc o dtMillis vtf).1.actionTimer = o.actionTimer := by
  unfold UpdateNPCPathMove
  dsimp only
  split
  · rfl
  · split <;> rfl

/-- `CheckForMapChange` only ever rewrites the current map: every other
object field is preserved. -/
theorem checkForMapChange_preserves (K : NetConstants) (o : ObjectData)
    (meta : MapMetaData) :
    (CheckForMapChange K o meta).1.actionTimer = o.actionTimer
    ∧ (CheckForMapChange K o meta).1.objectState = o.objectState
    ∧ (CheckForMapChange K o meta).1.facingDirection = o.facingDirection
    ∧ (CheckForMapChange K o meta).1.position = o.position
    ∧ (CheckForMapChange K o meta).1.velocity = o.velocity
    ∧ (CheckForMapChange K o meta).1.objectId = o.objectId := by
  rw [checkForMapChange_eq]
  split_ifs <;> exact ⟨rfl, rfl, rfl, rfl, rfl, rfl⟩

/-- C4: for an NPC with a non-empty path (front waypoint `w`), one movement
step with `v = w - position` and `step = speed * dtMillis` either (when
`|v| > step`) sets the velocity to `normalize(v) * step` and advances the
position by that velocity, leaving the path and state untouched, or else
snaps to `w`, zeroes the velocity, pops the waypoint and — when the path
becomes empty — clears the path and sets the state to IDLE; in both cases
the facing is set from `v`. -/
theorem claim_C4_npc_follow_path (pc : PCState) (o : ObjectData) (dtMillis : ℝ)
    (vtf : Vec3 → FacingDirection) (w : Vec3) (ws : List Vec3)
    (hpath : pc.mPaths o.objectId = some (w :: ws)) :
    (Vec3.length (Vec3.sub w o.position) > o.speed * dtMillis →
      (UpdateNPCPathMove pc o dtMillis vtf).1.velocity
          = Vec3.smul (o.speed * dtMillis) (Vec3.normalize (Vec3.sub w o.position))
      ∧ (UpdateNPCPathMove pc o dtMillis vtf).1.position
          = Vec3.add o.position
              (Vec3.smul (o.speed * dtMillis) (Vec3.normalize (Vec3.sub w o.position)))
      ∧ (UpdateNPCPathMove pc o dtMillis vtf).2.mPaths o.objectId = some (w :: ws)
      ∧ (UpdateNPCPathMove pc o dtMillis vtf).1.objectState = o.objectState)
    ∧ (¬ Vec3.length (Vec3.sub w o.position) > o.speed * dtMillis →
      (UpdateNPCPathMove pc o dtMillis vtf).1.position = w
      ∧ (UpdateNPCPathMove pc o dtMillis vtf).1.velocity = Vec3.zero
      ∧ (ws = [] →
          (UpdateNPCPathMove pc o dtMillis vtf).2.mPaths o.objectId = none
          ∧ (UpdateNPCPathMove pc o dtMillis vtf).1.objectState = ObjectState.IDLE)
      ∧ (ws ≠ [] →
          (UpdateNPCPathMove pc o dtMillis vtf).2.mPaths o.objectId = some ws
          ∧ (UpdateNPCPathMove pc o dtMillis vtf).1.objectState = o.objectState))
    ∧ (UpdateNPCPathMove pc o dtMillis vtf).1.facingDirection
        = vtf (Vec3.sub w o.position) := by
  have hGet : pc.GetPath o.objectId = w :: ws := by
    simp [PCState.GetPath, hpath]
  refine ⟨?_, ?_, ?_⟩
  · intro h
    refine ⟨?_, ?_, ?_, ?_⟩ <;>
      simp [UpdateNPCPathMove, hGet, h, hpath]
  · intro h
    refine ⟨?_, ?_, ?_, ?_⟩
    · simp only [UpdateNPCPathMove, hGet, List.headD_cons, List.tail_cons, h, ite_false]
      split <;> rfl
    · simp only [UpdateNPCPathMove, hGet, List.headD_cons, List.tail_cons, h, ite_false]
      split <;> rfl
    · intro hws
      subst hws
      simp [UpdateNPCPathMove, hGet, h, PCState.ClearObjectPath]
    · intro hws
      have hne : ws.isEmpty = false := by simpa [List.isEmpty_iff] using hws
      simp [UpdateNPCPathMove, hGet, h, hne]
  · by_cases h : Vec3.length (Vec3.sub w o.position) > o.speed * dtMillis <;>
      simp [UpdateNPCPathMove, hGet, h]

/-- C4 (witness): object 5 with the one-waypoint path of `fxPathPC`. -/
theorem claim_C4_npc_follow_path_witness :
    fxPathPC.mPaths fxChaser.objectId = some (⟨3, 0, 0⟩ :: [])
    ∧ ((Vec3.length (Vec3.sub ⟨3, 0, 0⟩ fxChaser.position) > fxChaser.speed * 25 →
        (UpdateNPCPathMove fxPathPC fxChaser 25 fxFacing).1.velocity
            = Vec3.smul (fxChaser.speed * 25)
                (Vec3.normalize (Vec3.sub ⟨3, 0, 0⟩ fxChaser.position))
        ∧ (UpdateNPCPathMove fxPathPC fxChaser 25 fxFacing).1.position
            = Vec3.add fxChaser.position
                (Vec3.smul (fxChaser.speed * 25)
                  (Vec3.normalize (Vec3.sub ⟨3, 0, 0⟩ fxChaser.position)))
        ∧ (UpdateNPCPathMove fxPathPC fxChaser 25 fxFacing).2.mPaths fxChaser.objectId
            = some (⟨3, 0, 0⟩ :: [])
        ∧ (UpdateNPCPathMove fxPathPC fxChaser 25 fxFacing).1.objectState
            = fxChaser.objectState)
      ∧ (¬ Vec3.length (Vec3.sub ⟨3, 0, 0⟩ fxChaser.position) > fxChaser.speed * 25 →
        (UpdateNPCPathMove fxPathPC fxChaser 25 fxFacing).1.position = ⟨3, 0, 0⟩
        ∧ (UpdateNPCPathMove fxPathPC fxChaser 25 fxFacing).1.velocity = Vec3.zero
        ∧ (([] : List Vec3) = [] →
            (UpdateNPCPathMove fxPathPC fxChaser 25 fxFacing).2.mPaths fxChaser.objectId
              = none
            ∧ (UpdateNPCPathMove fxPathPC fxChaser 25 fxFacing).1.objectState
              = ObjectState.IDLE)
        ∧ (([] : List Vec3) ≠ [] →
            (UpdateNPCPathMove fxPathPC fxChaser 25 fxFacing).2.mPaths fxChaser.objectId
              = some []
            ∧ (UpdateNPCPathMove fxPathPC fxChaser 25 fxFacing).1.objectState
              = fxChaser.objectState))
      ∧ (UpdateNPCPathMove fxPathPC fxChaser 25 fxFacing).1.facingDirection
          = fxFacing (Vec3.sub ⟨3, 0, 0⟩ fxChaser.position)) :=
  ⟨rfl, claim_C4_npc_follow_path fxPathPC fxChaser 25 fxFacing ⟨3, 0, 0⟩ [] rfl⟩

/-- The map-change tail preserves the events, action timer and state, and
either clears the object's path or leaves the path map untouched. -/
theorem npcPathMapChangeTail_spec (E : UpdaterEnv) (st2 : UpdaterState)
    (o2 : ObjectData) (objId : ℕ) :
    (npcPathMapChangeTail E st2 o2 objId).1.events = st2.events
    ∧ (npcPathMapChangeTail E st2 o2 objId).2.actionTimer = o2.actionTimer
    ∧ (npcPathMapChangeTail E st2 o2 objId).2.objectState = o2.objectState
    ∧ ((npcPathMapChangeTail E st2 o2 objId).1.pc.mPaths objId = none
       ∨ (npcPathMapChangeTail E st2 o2 objId).1.pc.mPaths objId
           = st2.pc.mPaths objId) := by
  have hP := checkForMapChange_preserves E.K o2 (E.metaOf (GetCurrentMapString o2))
  unfold npcPathMapChangeTail
  dsimp only
  split
  · exact ⟨rfl, hP.1, hP.2.1, Or.inl (by simp [PCState.ClearObjectPath])⟩
  · exact ⟨rfl, hP.1, hP.2.1, Or.inr rfl⟩

/-- C5: a path-following NPC with a target entry whose action timer is
negative, whose target is still present, and whose collider intersects the
(moved) NPC's, publishes `NPCAttack(self, MELEE, NONE)`, sets the action
timer to 0.5 s, transitions to MELEE_ATTACK, and has its path cleared, all
within the same `UpdateNPCPath` step. -/
theorem claim_C5_chase_to_melee (E : UpdaterEnv) (st : UpdaterState) (o : ObjectData)
    (dtMillis : ℝ) (mapPos : Vec2) (nm : Navmap) (e : TargetEntry)
    (htgt : st.mNPCToTargetEntries o.objectId = some e)
    (htimer : o.actionTimer < 0)
    (halive : E.tickHas e.mTargetObjectId = true)
    (hint : E.CollidersIntersect (E.tickObjs e.mTargetObjectId)
        (UpdateNPCPathMove st.pc o dtMillis E.vecToFacingDirection).1 = true) :
    (UpdateNPCPath E st o dtMillis mapPos nm).1.events
        = st.events ++ [GameEvent.npcAttack o.objectId AttackType.MELEE ProjectileType.NONE]
    ∧ (UpdateNPCPath E st o dtMillis mapPos nm).2.actionTimer
        = NPC_ATTACK_ANIMATION_TIMER_SECS
    ∧ (UpdateNPCPath E st o dtMillis mapPos nm).2.objectState
        = ObjectState.MELEE_ATTACK
    ∧ (UpdateNPCPath E st o dtMillis mapPos nm).1.pc.mPaths o.objectId = none := by
  have hAT : (UpdateNPCPathMove st.pc o dtMillis E.vecToFacingDirection).1.actionTimer
      = o.actionTimer := updateNPCPathMove_actionTimer _ _ _ _
  have hcond : (UpdateNPCPathMove st.pc o dtMillis E.vecToFacingDirection).1.actionTimer < 0
      ∧ E.tickHas e.mTargetObjectId = true
      ∧ E.CollidersIntersect (E.tickObjs e.mTargetObjectId)
          (UpdateNPCPathMove st.pc o dtMillis E.vecToFacingDirection).1 = true :=
    ⟨hAT ▸ htimer, halive, hint⟩
  unfold UpdateNPCPath
  simp only [htgt]
  rw [if_pos hcond]
  refine ⟨((npcPathMapChangeTail_spec E _ _ _).1).trans rfl,
          ((npcPathMapChangeTail_spec E _ _ _).2.1).trans rfl,
          ((npcPathMapChangeTail_spec E _ _ _).2.2.1).trans rfl, ?_⟩
  rcases (npcPathMapChangeTail_spec E _ _ _).2.2.2 with h | h
  · exact h
  · rw [h]
    simp [PCState.ClearObjectPath]

/-- C5 (witness): the concrete chase-to-melee run of `fxChaseState`. -/
theorem claim_C5_chase_to_melee_witness :
    (UpdateNPCPath fxEnvTouch fxChaseState fxChaser 25 ⟨0, 0⟩ fxNm).1.events
        = fxChaseState.events
          ++ [GameEvent.npcAttack fxChaser.objectId AttackType.MELEE ProjectileType.NONE]
    ∧ (UpdateNPCPath fxEnvTouch fxChaseState fxChaser 25 ⟨0, 0⟩ fxNm).2.actionTimer
        = NPC_ATTACK_ANIMATION_TIMER_SECS
    ∧ (UpdateNPCPath fxEnvTouch fxChaseState fxChaser 25 ⟨0, 0⟩ fxNm).2.objectState
        = ObjectState.MELEE_ATTACK
    ∧ (UpdateNPCPath fxEnvTouch fxChaseState fxChaser 25 ⟨0, 0⟩ fxNm).1.pc.mPaths
        fxChaser.objectId = none :=
  claim_C5_chase_to_melee fxEnvTouch fxChaseState fxChaser 25 ⟨0, 0⟩ fxNm ⟨2, 1⟩
    rfl (by norm_num [fxChaser]) rfl rfl

/-- Zeroing the velocity does not change the line-of-sight test (it reads
only the source position and speed). -/
theorem isTargetInLOS_zero_velocity (K : NetConstants) (o tgt : ObjectData)
    (nm : Navmap) (mapPos : Vec2) (dtMillis : ℝ) :
    IsTargetInLOS K { o with velocity := Vec3.zero } tgt nm mapPos dtMillis
      = IsTargetInLOS K o tgt nm mapPos dtMillis := rfl

/-- Zeroing the velocity does not change the target scan (none of its
filters reads the velocity). -/
theorem findValidTargetScan_zero_velocity (E : UpdaterEnv) (o : ObjectData)
    (dtMillis : ℝ) (mapPos : Vec2) (nm : Navmap) (l : List ℕ) :
    findValidTargetScan E { o with velocity := Vec3.zero } dtMillis mapPos nm l
      = findValidTargetScan E o dtMillis mapPos nm l := by
  induction l with
  | nil => rfl
  | cons a l ih =>
    simp only [findValidTargetScan, isTargetInLOS_zero_velocity, ih]

/-- One scan step: a valid candidate at the head is returned; an invalid
head is skipped. -/
theorem findValidTargetScan_cons (E : UpdaterEnv) (o : ObjectData) (dtMillis : ℝ)
    (mapPos : Vec2) (nm : Navmap) (id : ℕ) (rest : List ℕ) :
    (ValidAggroCandidate E o dtMillis mapPos nm id →
      findValidTargetScan E o dtMillis mapPos nm (id :: rest) = id)
    ∧ (¬ ValidAggroCandidate E o dtMillis mapPos nm id →
      findValidTargetScan E o dtMillis mapPos nm (id :: rest)
        = findValidTargetScan E o dtMillis mapPos nm rest) := by
  constructor
  · rintro ⟨h1, h2, h3, h4, h5, h6⟩
    have h3' : ¬ ((E.tickObjs id).objectType ≠ ObjectType.PLAYER
        ∧ (E.tickObjs id).objectType ≠ ObjectType.NPC) := by
      rcases h3 with h | h <;> simp [h]
    have h5' : ¬ (Vec3.dist o.position
        ⟨(E.tickObjs id).position.x, (E.tickObjs id).position.y, o.position.z⟩
        > AGGRO_RANGE E.K) := not_lt.mpr h5
    rw [findValidTargetScan, if_neg h1, if_neg h2, if_neg h3', if_neg h4,
      if_neg h5', if_neg (by simp [h6])]
  · intro hNv
    by_cases c1 : id = o.objectId
    · rw [findValidTargetScan, if_pos c1]
    by_cases c2 : o.objectFaction = ObjectFaction.NEUTRAL
    · rw [findValidTargetScan, if_neg c1, if_pos c2]
    by_cases c3 : (E.tickObjs id).objectType ≠ ObjectType.PLAYER
        ∧ (E.tickObjs id).objectType ≠ ObjectType.NPC
    · rw [findValidTargetScan, if_neg c1, if_neg c2, if_pos c3]
    by_cases c4 : o.objectFaction = (E.tickObjs id).objectFaction
    · rw [findValidTargetScan, if_neg c1, if_neg c2, if_neg c3, if_pos c4]
    by_cases c5 : Vec3.dist o.position
        ⟨(E.tickObjs id).position.x, (E.tickObjs id).position.y, o.position.z⟩
        > AGGRO_RANGE E.K
    · rw [findValidTargetScan, if_neg c1, if_neg c2, if_neg c3, if_neg c4, if_pos c5]
    by_cases c6 : IsTargetInLOS E.K o (E.tickObjs id) nm mapPos dtMillis = false
    · rw [findValidTargetScan, if_neg c1, if_neg c2, if_neg c3, if_neg c4, if_neg c5,
        if_pos c6]
    exfalso
    apply hNv
    refine ⟨c1, c2, by tauto, c4, not_lt.mp c5, ?_⟩
    cases hb : IsTargetInLOS E.K o (E.tickObjs id) nm mapPos dtMillis
    · exact absurd hb c6
    · rfl

/-- The scan returns the first valid candidate of the list. -/
theorem findValidTargetScan_first (E : UpdaterEnv) (o : ObjectData) (dtMillis : ℝ)
    (mapPos : Vec2) (nm : Navmap) (pre : List ℕ) (t : ℕ) (post : List ℕ)
    (hpre : ∀ u ∈ pre, ¬ ValidAggroCandidate E o dtMillis mapPos nm u)
    (ht : ValidAggroCandidate E o dtMillis mapPos nm t) :
    findValidTargetScan E o dtMillis mapPos nm (pre ++ t :: post) = t := by
  induction pre with
  | nil => exact (findValidTargetScan_cons E o dtMillis mapPos nm t post).1 ht
  | cons a pre ih =>
    rw [List.cons_append,
      (findValidTargetScan_cons E o dtMillis mapPos nm a (pre ++ t :: post)).2
        (hpre a (by simp))]
    exact ih fun u hu => hpre u (by simp [hu])

/-- The scan returns 0 when no candidate of the list is valid. -/
theorem findValidTargetScan_nothing (E : UpdaterEnv) (o : ObjectData) (dtMillis : ℝ)
    (mapPos : Vec2) (nm : Navmap) (l : List ℕ)
    (h : ∀ u ∈ l, ¬ ValidAggroCandidate E o dtMillis mapPos nm u) :
    findValidTargetScan E o dtMillis mapPos nm l = 0 := by
  induction l with
  | nil => rfl
  | cons a l ih =>
    rw [(findValidTargetScan_cons E o dtMillis mapPos nm a l).2 (h a (by simp))]
    exact ih fun u hu => h u (by simp [hu])

/-- C3: for an IDLE NPC without a path, target selection scans the current
map's ids in order and returns the first valid candidate (not self, own
faction not NEUTRAL, candidate PLAYER or NPC, differing faction, within
`AGGRO_RANGE = MAP_TILE_SIZE * 4`, unblocked line of sight), or 0 when
none is valid; when a target `t ≠ 0` is found, `UpdateNPC` records the
target entry with `recalc = 0.05 s`, faces the target, publishes exactly
one `NPCAggro(self, target)` event, and enqueues exactly one path-finding
task. -/
theorem claim_C3_aggro_acquisition (E : UpdaterEnv) (st : UpdaterState)
    (o : ObjectData) (dtMillis : ℝ) (rng : FacingDirection)
    (hstate : o.objectState = ObjectState.IDLE)
    (hnopath : st.pc.mPaths o.objectId = none) :
    (∀ pre t post,
      E.idsPerMap (GetCurrentMapString o) = pre ++ t :: post →
      (∀ u ∈ pre, ¬ ValidAggroCandidate E o dtMillis
          (E.metaOf (GetCurrentMapString o)).mMapPosition
          (E.navOf (GetCurrentMapString o)) u) →
      ValidAggroCandidate E o dtMillis
          (E.metaOf (GetCurrentMapString o)).mMapPosition
          (E.navOf (GetCurrentMapString o)) t →
      FindValidTarget E o dtMillis (GetCurrentMapString o)
          (E.metaOf (GetCurrentMapString o)).mMapPosition
          (E.navOf (GetCurrentMapString o)) = t)
    ∧ ((∀ u ∈ E.idsPerMap (GetCurrentMapString o),
        ¬ ValidAggroCandidate E o dtMillis
            (E.metaOf (GetCurrentMapString o)).mMapPosition
            (E.navOf (GetCurrentMapString o)) u) →
      FindValidTarget E o dtMillis (GetCurrentMapString o)
          (E.metaOf (GetCurrentMapString o)).mMapPosition
          (E.navOf (GetCurrentMapString o)) = 0)
    ∧ (∀ t,
      FindValidTarget E o dtMillis (GetCurrentMapString o)
          (E.metaOf (GetCurrentMapString o)).mMapPosition
          (E.navOf (GetCurrentMapString o)) = t →
      t ≠ 0 →
      (UpdateNPC E st o dtMillis rng).1.mNPCToTargetEntries o.objectId
          = some ⟨t, NPC_PATH_RECALCULATION_SECS⟩
      ∧ (UpdateNPC E st o dtMillis rng).2.facingDirection
          = E.vecToFacingDirection (Vec3.normalize (Vec3.sub
              ⟨(E.tickObjs t).position.x, (E.tickObjs t).position.y, o.position.z⟩
              o.position))
      ∧ (UpdateNPC E st o dtMillis rng).1.events
          = st.events ++ [GameEvent.npcAggro o.objectId (E.tickObjs t).objectId]
      ∧ (UpdateNPC E st o dtMillis rng).1.pc.taskQueue
          = st.pc.taskQueue
            ++ [⟨o.objectId, o.position,
                 ⟨(E.tickObjs t).position.x, (E.tickObjs t).position.y, o.position.z⟩,
                 (E.metaOf (GetCurrentMapString o)).mMapPosition,
                 E.navOf (GetCurrentMapString o)⟩]) := by
  refine ⟨?_, ?_, ?_⟩
  · intro pre t post hsplit hpre ht
    unfold FindValidTarget
    rw [hsplit]
    exact findValidTargetScan_first E o dtMillis _ _ pre t post hpre ht
  · intro hall
    unfold FindValidTarget
    exact findValidTargetScan_nothing E o dtMillis _ _ _ hall
  · intro t hfind ht0
    have hfind0 : FindValidTarget E { o with velocity := Vec3.zero } dtMillis
        (GetCurrentMapString o)
        (E.metaOf (GetCurrentMapString o)).mMapPosition
        (E.navOf (GetCurrentMapString o)) = t := by
      unfold FindValidTarget at hfind ⊢
      rw [findValidTargetScan_zero_velocity]
      exact hfind
    have hhave : st.pc.DoesObjectHavePath o.objectId = false := by
      simp [PCState.DoesObjectHavePath, hnopath]
    rw [hstate] at hfind0
    unfold UpdateNPC
    dsimp only
    rw [hstate]
    simp only [hhave, hfind0, Bool.false_eq_true, if_false, if_pos ht0]
    refine ⟨?_, ?_, ?_, ?_⟩ <;> simp [PCState.FindPath]

/-- C3 (witness): the EVIL NPC at the origin acquires the GOOD player two
units east: the scan returns id 2, and the aggro actions fire. -/
theorem claim_C3_aggro_acquisition_witness :
    FindValidTarget fxEnvAggro fxAggroNpc 25 (GetCurrentMapString fxAggroNpc)
        (fxEnvAggro.metaOf (GetCurrentMapString fxAggroNpc)).mMapPosition
        (fxEnvAggro.navOf (GetCurrentMapString fxAggroNpc)) = 2
    ∧ ((UpdateNPC fxEnvAggro fxStEmpty fxAggroNpc 25 FacingDirection.SOUTH).1.mNPCToTargetEntries
          fxAggroNpc.objectId = some ⟨2, NPC_PATH_RECALCULATION_SECS⟩
      ∧ (UpdateNPC fxEnvAggro fxStEmpty fxAggroNpc 25 FacingDirection.SOUTH).2.facingDirection
          = fxEnvAggro.vecToFacingDirection (Vec3.normalize (Vec3.sub
              ⟨(fxEnvAggro.tickObjs 2).position.x, (fxEnvAggro.tickObjs 2).position.y,
               fxAggroNpc.position.z⟩
              fxAggroNpc.position))
      ∧ (UpdateNPC fxEnvAggro fxStEmpty fxAggroNpc 25 FacingDirection.SOUTH).1.events
          = fxStEmpty.events
            ++ [GameEvent.npcAggro fxAggroNpc.objectId (fxEnvAggro.tickObjs 2).objectId]
      ∧ (UpdateNPC fxEnvAggro fxStEmpty fxAggroNpc 25 FacingDirection.SOUTH).1.pc.taskQueue
          = fxStEmpty.pc.taskQueue
            ++ [⟨fxAggroNpc.objectId, fxAggroNpc.position,
                 ⟨(fxEnvAggro.tickObjs 2).position.x, (fxEnvAggro.tickObjs 2).position.y,
                  fxAggroNpc.position.z⟩,
                 (fxEnvAggro.metaOf (GetCurrentMapString fxAggroNpc)).mMapPosition,
                 fxEnvAggro.navOf (GetCurrentMapString fxAggroNpc)⟩]) := by
  have hdist : Vec3.dist fxAggroNpc.position
      ⟨(fxEnvAggro.tickObjs 2).position.x, (fxEnvAggro.tickObjs 2).position.y,
        fxAggroNpc.position.z⟩ = 2 := by
    show Vec3.length _ = 2
    rw [Vec3.length]
    rw [show (Vec3.sub
        ⟨(fxEnvAggro.tickObjs 2).position.x, (fxEnvAggro.tickObjs 2).position.y,
          fxAggroNpc.position.z⟩ fxAggroNpc.position).x ^ 2
        + (Vec3.sub
        ⟨(fxEnvAggro.tickObjs 2).position.x, (fxEnvAggro.tickObjs 2).position.y,
          fxAggroNpc.position.z⟩ fxAggroNpc.position).y ^ 2
        + (Vec3.sub
        ⟨(fxEnvAggro.tickObjs 2).position.x, (fxEnvAggro.tickObjs 2).position.y,
          fxAggroNpc.position.z⟩ fxAggroNpc.position).z ^ 2 = (2 : ℝ) ^ 2 by
      norm_num [Vec3.sub, fxEnvAggro, fxPrey, fxAggroNpc]]
    exact Real.sqrt_sq (by norm_num)
  have hLOS : IsTargetInLOS fxEnvAggro.K fxAggroNpc (fxEnvAggro.tickObjs 2)
      (fxEnvAggro.navOf (GetCurrentMapString fxAggroNpc))
      (fxEnvAggro.metaOf (GetCurrentMapString fxAggroNpc)).mMapPosition 25 = true := by
    rw [IsTargetInLOS]
    apply decide_eq_true
    intro i hi
    exfalso
    have htr : truncToInt (Vec3.dist fxAggroNpc.position
        ⟨(fxEnvAggro.tickObjs 2).position.x, (fxEnvAggro.tickObjs 2).position.y,
          fxAggroNpc.position.z⟩ / (fxAggroNpc.speed * 25 / 2)) = 0 := by
      rw [hdist, truncToInt, if_pos (by norm_num [fxAggroNpc] : (0:ℝ) ≤ 2 / (fxAggroNpc.speed * 25 / 2))]
      rw [Int.floor_eq_zero_iff]
      constructor <;> norm_num [fxAggroNpc]
    rw [htr] at hi
    simp at hi
  have hv : ValidAggroCandidate fxEnvAggro fxAggroNpc 25
      (fxEnvAggro.metaOf (GetCurrentMapString fxAggroNpc)).mMapPosition
      (fxEnvAggro.navOf (GetCurrentMapString fxAggroNpc)) 2 := by
    refine ⟨by decide, by decide, ?_, by decide, ?_, hLOS⟩
    · left; rfl
    · rw [hdist]
      norm_num [AGGRO_RANGE, fxEnvAggro, fxK]
  have hC := claim_C3_aggro_acquisition fxEnvAggro fxStEmpty fxAggroNpc 25
    FacingDirection.SOUTH rfl rfl
  have hfind := hC.1 [] 2 [] rfl (by intro u hu; simp at hu) hv
  exact ⟨hfind, hC.2.2 2 hfind (by decide)⟩

/-- C9 (counterexample): with a one-map manifest and a navmap directory
whose single PNG fails to decode, the manifest count (1) and navmap count
(0) disagree and a decode failure occurred, yet startup reaches the main
loop — there is no fatal CONFIG_ERROR. -/
theorem claim_C9_counterexample :
    entersMain (serverStartup true fxManifestOneMap fxBadNavmapFiles true) = true
    ∧ startupMetaCount (serverStartup true fxManifestOneMap fxBadNavmapFiles true) = 1
    ∧ startupNavmapCount (serverStartup true fxManifestOneMap fxBadNavmapFiles true) = 0
    ∧ entersMain (serverStartup true ManifestSource.missing fxBadNavmapFiles true) = true :=
  ⟨rfl, rfl, rfl, rfl⟩

/-- C9 (amended): only a manifest parse failure aborts startup (as an
uncaught exception — not a designed CONFIG_ERROR); a missing manifest file
and navmap decode failures are logged and skipped, no count comparison
exists, and the process continues into the main loop with whatever
loaded. -/
theorem claim_C9_startup_behavior (files : List NavmapFile)
    (entries : List ManifestEntry) :
    serverStartup true ManifestSource.malformed files true
        = StartupOutcome.abortedByException
    ∧ serverStartup true ManifestSource.missing files true
        = StartupOutcome.entersMainLoop ⟨[], LoadNavmapData files, []⟩
    ∧ serverStartup true (ManifestSource.parsed entries) files true
        = StartupOutcome.entersMainLoop
            ⟨metaOfEntries entries, LoadNavmapData files,
             (metaOfEntries entries).map Prod.fst⟩ :=
  ⟨rfl, rfl, rfl⟩

/-- The ATTACK branch only rewrites the stepped id's TTL entry and possibly
appends that id to the removal list. -/
theorem tickAttackStep_frame (E : TickEnv) (acc : TickState) (oid : ℕ)
    (o : ObjectData) (dtMillis : ℝ) :
    (tickAttackStep E acc oid o dtMillis).1.objectDataMap = acc.objectDataMap
    ∧ (tickAttackStep E acc oid o dtMillis).1.pendingObjectsToSpawn
        = acc.pendingObjectsToSpawn
    ∧ (tickAttackStep E acc oid o dtMillis).1.broadcasts = acc.broadcasts
    ∧ (tickAttackStep E acc oid o dtMillis).1.quadtrees = acc.quadtrees
    ∧ (∀ i, i ≠ oid →
        (tickAttackStep E acc oid o dtMillis).1.tempObjectTTL i = acc.tempObjectTTL i)
    ∧ ((tickAttackStep E acc oid o dtMillis).1.tempObjectsToRemove
          = acc.tempObjectsToRemove
       ∨ (tickAttackStep E acc oid o dtMillis).1.tempObjectsToRemove
          = acc.tempObjectsToRemove ++ [oid]) := by
  unfold tickAttackStep
  dsimp only
  repeat' split
  all_goals
    first
      | exact ⟨rfl, rfl, rfl, rfl, fun i hi => by simp [ite_apply, hi], Or.inl rfl⟩
      | exact ⟨rfl, rfl, rfl, rfl, fun i hi => by simp [ite_apply, hi], Or.inr rfl⟩

/-- The loiter stage of the NPC branch only rewrites the stepped id's
next-tile entry. -/
theorem tickNPCStage1_frame (E : TickEnv) (acc : TickState) (oid : ℕ)
    (o : ObjectData) (dtMillis : ℝ) :
    (tickNPCStage1 E acc oid o dtMillis).1.objectDataMap = acc.objectDataMap
    ∧ (tickNPCStage1 E acc oid o dtMillis).1.pendingObjectsToSpawn
        = acc.pendingObjectsToSpawn
    ∧ (tickNPCStage1 E acc oid o dtMillis).1.broadcasts = acc.broadcasts
    ∧ (tickNPCStage1 E acc oid o dtMillis).1.quadtrees = acc.quadtrees
    ∧ (tickNPCStage1 E acc oid o dtMillis).1.tempObjectTTL = acc.tempObjectTTL
    ∧ (tickNPCStage1 E acc oid o dtMillis).1.tempObjectsToRemove
        = acc.tempObjectsToRemove := by
  unfold tickNPCStage1
  dsimp only
  repeat' split
  all_goals exact ⟨rfl, rfl, rfl, rfl, rfl, rfl⟩

/-- The arrival stage of the NPC branch only rewrites the stepped id's
next-tile entry. -/
theorem tickNPCArrive_frame (E : TickEnv) (acc : TickState) (oid : ℕ)
    (o : ObjectData) (dtMillis : ℝ) :
    (tickNPCArrive E acc oid o dtMillis).1.objectDataMap = acc.objectDataMap
    ∧ (tickNPCArrive E acc oid o dtMillis).1.pendingObjectsToSpawn
        = acc.pendingObjectsToSpawn
    ∧ (tickNPCArrive E acc oid o dtMillis).1.broadcasts = acc.broadcasts
    ∧ (tickNPCArrive E acc oid o dtMillis).1.quadtrees = acc.quadtrees
    ∧ (tickNPCArrive E acc oid o dtMillis).1.tempObjectTTL = acc.tempObjectTTL
    ∧ (tickNPCArrive E acc oid o dtMillis).1.tempObjectsToRemove
        = acc.tempObjectsToRemove := by
  unfold tickNPCArrive
  dsimp only
  repeat' split
  all_goals exact ⟨rfl, rfl, rfl, rfl, rfl, rfl⟩

/-- A single object step only ever writes the stepped object's own entries
of the TTL and loiter maps, possibly appends only that object's id to the
removal list, and leaves the object table, the pending spawns, the
broadcasts and the quadtrees alone. -/
theorem tickObjectStep_frame (E : TickEnv) (acc : TickState) (oid : ℕ)
    (o : ObjectData) (dtMillis : ℝ) :
    (tickObjectStep E acc oid o dtMillis).1.objectDataMap = acc.objectDataMap
    ∧ (tickObjectStep E acc oid o dtMillis).1.pendingObjectsToSpawn
        = acc.pendingObjectsToSpawn
    ∧ (tickObjectStep E acc oid o dtMillis).1.broadcasts = acc.broadcasts
    ∧ (tickObjectStep E acc oid o dtMillis).1.quadtrees = acc.quadtrees
    ∧ (∀ i, i ≠ oid →
        (tickObjectStep E acc oid o dtMillis).1.tempObjectTTL i = acc.tempObjectTTL i)
    ∧ ((tickObjectStep E acc oid o dtMillis).1.tempObjectsToRemove
          = acc.tempObjectsToRemove
       ∨ (tickObjectStep E acc oid o dtMillis).1.tempObjectsToRemove
          = acc.tempObjectsToRemove ++ [oid]) := by
  unfold tickObjectStep
  rcases h : o.objectType
  case ATTACK =>
    obtain ⟨h1, h2, h3, h4, h5, h6⟩ := tickAttackStep_frame E acc oid o dtMillis
    exact ⟨h1, h2, h3, h4, h5, h6⟩
  case NPC =>
    obtain ⟨a1, a2, a3, a4, a5, a6⟩ := tickNPCStage1_frame E acc oid o dtMillis
    obtain ⟨b1, b2, b3, b4, b5, b6⟩ :=
      tickNPCArrive_frame E (tickNPCStage1 E acc oid o dtMillis).1 oid
        (tickNPCStage1 E acc oid o dtMillis).2 dtMillis
    refine ⟨?_, ?_, ?_, ?_, ?_, Or.inl ?_⟩
    · exact b1.trans a1
    · exact b2.trans a2
    · exact b3.trans a3
    · exact b4.trans a4
    · intro i _
      exact congrFun (b5.trans a5) i
    · exact b6.trans a6
  all_goals exact ⟨rfl, rfl, rfl, rfl, fun i _ => rfl, Or.inl rfl⟩

/-- Remapping an association list at one key leaves the key list alone. -/
theorem map_fst_if (l : List (ℕ × ObjectData)) (j : ℕ) (o : ObjectData) :
    (l.map fun q => if q.1 = j then (q.1, o) else q).map Prod.fst
      = l.map Prod.fst := by
  induction l with
  | nil => rfl
  | cons a t ih => by_cases h : a.1 = j <;> simp [h, ih]

/-- One iteration of the object loop leaves the pending spawns and the
broadcasts alone, preserves the key list of the object table, touches the
TTL map only at the stepped id, and grows the removal list by at most the
stepped id. -/
theorem tickObjectFold_frame (E : TickEnv) (dtMillis : ℝ) (acc : TickState)
    (p : ℕ × ObjectData) :
    (tickObjectFold E dtMillis acc p).pendingObjectsToSpawn
        = acc.pendingObjectsToSpawn
    ∧ (tickObjectFold E dtMillis acc p).broadcasts = acc.broadcasts
    ∧ (tickObjectFold E dtMillis acc p).objectDataMap.map Prod.fst
        = acc.objectDataMap.map Prod.fst
    ∧ (∀ i, i ≠ p.1 →
        (tickObjectFold E dtMillis acc p).tempObjectTTL i = acc.tempObjectTTL i)
    ∧ (∀ x ∈ (tickObjectFold E dtMillis acc p).tempObjectsToRemove,
        x ∈ acc.tempObjectsToRemove ∨ x = p.1) := by
  obtain ⟨h1, h2, h3, h4, h5, h6⟩ := tickObjectStep_frame E acc p.1 p.2 dtMillis
  refine ⟨h2, h3, ?_, h5, ?_⟩
  · exact (map_fst_if _ _ _).trans (by rw [h1])
  · intro x hx
    have hx' : x ∈ (tickObjectStep E acc p.1 p.2 dtMillis).1.tempObjectsToRemove := hx
    rcases h6 with h | h
    · rw [h] at hx'
      exact Or.inl hx'
    · rw [h] at hx'
      rcases List.mem_append.mp hx' with h' | h'
      · exact Or.inl h'
      · exact Or.inr (List.mem_singleton.mp h')

/-- The whole object loop leaves the pending spawns and broadcasts alone,
preserves the key list of the object table, touches the TTL map only at
processed ids, and grows the removal list only by processed ids. -/
theorem objectLoop_frame (E : TickEnv) (dtMillis : ℝ) :
    ∀ (L : List (ℕ × ObjectData)) (acc : TickState),
    (L.foldl (tickObjectFold E dtMillis) acc).pendingObjectsToSpawn
        = acc.pendingObjectsToSpawn
    ∧ (L.foldl (tickObjectFold E dtMillis) acc).broadcasts = acc.broadcasts
    ∧ (L.foldl (tickObjectFold E dtMillis) acc).objectDataMap.map Prod.fst
        = acc.objectDataMap.map Prod.fst
    ∧ (∀ i, i ∉ L.map Prod.fst →
        (L.foldl (tickObjectFold E dtMillis) acc).tempObjectTTL i
          = acc.tempObjectTTL i)
    ∧ (∀ x ∈ (L.foldl (tickObjectFold E dtMillis) acc).tempObjectsToRemove,
        x ∈ acc.tempObjectsToRemove ∨ x ∈ L.map Prod.fst) := by
  intro L
  induction L with
  | nil => exact fun acc => ⟨rfl, rfl, rfl, fun i _ => rfl, fun x hx => Or.inl hx⟩
  | cons p t ih =>
    intro acc
    obtain ⟨f1, f2, f3, f4, f5⟩ := tickObjectFold_frame E dtMillis acc p
    obtain ⟨g1, g2, g3, g4, g5⟩ := ih (tickObjectFold E dtMillis acc p)
    refine ⟨g1.trans f1, g2.trans f2, g3.trans f3, ?_, ?_⟩
    · intro i hi
      rw [List.map_cons, List.mem_cons] at hi
      push_neg at hi
      exact (g4 i hi.2).trans (f4 i hi.1)
    · intro x hx
      rcases g5 x hx with h | h
      · rcases f5 x h with h' | h'
        · exact Or.inl h'
        · exact Or.inr (by rw [List.map_cons, h']; exact List.mem_cons_self p.1 (t.map Prod.fst))
      · exact Or.inr (by rw [List.map_cons]; exact List.mem_cons_of_mem _ h)

/-- After an upsert of `(id, o)` the entry `(id, o)` is in the table. -/
theorem upsertObject_self_mem (l : List (ℕ × ObjectData)) (id : ℕ)
    (o : ObjectData) : (id, o) ∈ upsertObject l id o := by
  unfold upsertObject
  split
  · next h =>
    rcases List.any_eq_true.mp h with ⟨q, hq, hq1⟩
    have hq2 : q.1 = id := by simpa using hq1
    exact List.mem_map.mpr ⟨q, hq, by simp [hq2]⟩
  · exact List.mem_append_right _ (List.mem_singleton.mpr rfl)

/-- An upsert at a different key keeps an existing entry. -/
theorem upsertObject_mem_of_ne (l : List (ℕ × ObjectData)) (j id : ℕ)
    (o o' : ObjectData) (hne : id ≠ j) (hm : (id, o) ∈ l) :
    (id, o) ∈ upsertObject l j o' := by
  unfold upsertObject
  split
  · exact List.mem_map.mpr ⟨(id, o), hm, by simp [hne]⟩
  · exact List.mem_append_left _ hm

/-- One iteration of the pending-spawn loop never touches the TTL map or
the removal list. -/
theorem tickPendingFold_frame (dtMillis : ℝ) (acc : TickState)
    (p : ℕ × ObjectData × ℝ) :
    (tickPendingFold dtMillis acc p).tempObjectTTL = acc.tempObjectTTL
    ∧ (tickPendingFold dtMillis acc p).tempObjectsToRemove
        = acc.tempObjectsToRemove := by
  unfold tickPendingFold
  dsimp only
  split <;> exact ⟨rfl, rfl⟩

/-- The pending-spawn loop never touches the TTL map or the removal
list. -/
theorem pendingLoop_frame (dtMillis : ℝ) :
    ∀ (P : List (ℕ × ObjectData × ℝ)) (acc : TickState),
    (P.foldl (tickPendingFold dtMillis) acc).tempObjectTTL = acc.tempObjectTTL
    ∧ (P.foldl (tickPendingFold dtMillis) acc).tempObjectsToRemove
        = acc.tempObjectsToRemove := by
  intro P
  induction P with
  | nil => exact fun acc => ⟨rfl, rfl⟩
  | cons p t ih =>
    intro acc
    obtain ⟨f1, f2⟩ := tickPendingFold_frame dtMillis acc p
    obtain ⟨g1, g2⟩ := ih (tickPendingFold dtMillis acc p)
    exact ⟨g1.trans f1, g2.trans f2⟩

/-- Broadcast membership is monotone along the pending-spawn loop. -/
theorem pendingLoop_broadcast_mono (dtMillis : ℝ) :
    ∀ (P : List (ℕ × ObjectData × ℝ)) (acc : TickState)
      (b : OutMessage × Channel), b ∈ acc.broadcasts →
    b ∈ (P.foldl (tickPendingFold dtMillis) acc).broadcasts := by
  intro P
  induction P with
  | nil => exact fun acc b hb => hb
  | cons p t ih =>
    intro acc b hb
    refine ih (tickPendingFold dtMillis acc p) b ?_
    unfold tickPendingFold
    dsimp only
    split
    · exact List.mem_append_left _ hb
    · exact hb

/-- Pending-entry membership is monotone along the pending-spawn loop. -/
theorem pendingLoop_pending_mono (dtMillis : ℝ) :
    ∀ (P : List (ℕ × ObjectData × ℝ)) (acc : TickState)
      (q : ℕ × ObjectData × ℝ), q ∈ acc.pendingObjectsToSpawn →
    q ∈ (P.foldl (tickPendingFold dtMillis) acc).pendingObjectsToSpawn := by
  intro P
  induction P with
  | nil => exact fun acc q hq => hq
  | cons p t ih =>
    intro acc q hq
    refine ih (tickPendingFold dtMillis acc p) q ?_
    unfold tickPendingFold
    dsimp only
    split
    · exact hq
    · exact List.mem_append_left _ hq

/-- If every pending entry carrying the object's id carries the object
itself, table membership of that object is preserved along the
pending-spawn loop. -/
theorem pendingLoop_obj_preserve (dtMillis : ℝ) (o : ObjectData) :
    ∀ (P : List (ℕ × ObjectData × ℝ)) (acc : TickState),
    (∀ q ∈ P, q.2.1.objectId = o.objectId → q.2.1 = o) →
    (o.objectId, o) ∈ acc.objectDataMap →
    (o.objectId, o) ∈ (P.foldl (tickPendingFold dtMillis) acc).objectDataMap := by
  intro P
  induction P with
  | nil => exact fun acc _ hm => hm
  | cons p t ih =>
    intro acc hO hm
    refine ih (tickPendingFold dtMillis acc p)
      (fun q hq => hO q (List.mem_cons_of_mem _ hq)) ?_
    unfold tickPendingFold
    dsimp only
    split
    · by_cases hq : p.2.1.objectId = o.objectId
      · have he : p.2.1 = o := hO p (List.mem_cons_self _ _) hq
        show (o.objectId, o) ∈ upsertObject acc.objectDataMap p.2.1.objectId p.2.1
        rw [he]
        exact upsertObject_self_mem _ _ _
      · exact upsertObject_mem_of_ne _ _ _ _ _ (fun h => hq h.symm) hm
    · exact hm

/-- The pending-spawn step at an expired entry: commit and broadcast. -/
theorem tickPendingFold_commit (dtMillis : ℝ) (acc : TickState)
    (p : ℕ × ObjectData × ℝ) (hle : p.2.2 - dtMillis / 1000 ≤ 0) :
    tickPendingFold dtMillis acc p
      = { acc with
          objectDataMap := upsertObject acc.objectDataMap p.2.1.objectId p.2.1
          broadcasts := acc.broadcasts
            ++ [(OutMessage.objectCreated p.2.1, Channel.RELIABLE)] } := by
  unfold tickPendingFold
  dsimp only
  rw [if_pos hle]

/-- The pending-spawn step at an unexpired entry: keep it with the
decremented countdown. -/
theorem tickPendingFold_tick (dtMillis : ℝ) (acc : TickState)
    (p : ℕ × ObjectData × ℝ) (hpos : ¬ p.2.2 - dtMillis / 1000 ≤ 0) :
    tickPendingFold dtMillis acc p
      = { acc with pendingObjectsToSpawn := acc.pendingObjectsToSpawn
            ++ [(p.1, p.2.1, p.2.2 - dtMillis / 1000)] } := by
  unfold tickPendingFold
  dsimp only
  rw [if_neg hpos]

/-- If an expired entry for the object is in the pending list and every
pending entry carrying the object's id carries the object itself, the
pending-spawn loop commits the object to the table and broadcasts its
reliable `ObjectCreated` message. -/
theorem pendingLoop_commit (dtMillis : ℝ) (o : ObjectData) (pid : ℕ) (s : ℝ)
    (hle : s - dtMillis / 1000 ≤ 0) :
    ∀ (P : List (ℕ × ObjectData × ℝ)) (acc : TickState), (pid, o, s) ∈ P →
    (∀ q ∈ P, q.2.1.objectId = o.objectId → q.2.1 = o) →
    (o.objectId, o) ∈ (P.foldl (tickPendingFold dtMillis) acc).objectDataMap
    ∧ (OutMessage.objectCreated o, Channel.RELIABLE)
        ∈ (P.foldl (tickPendingFold dtMillis) acc).broadcasts := by
  intro P
  induction P with
  | nil => exact fun acc h _ => absurd h (List.not_mem_nil _)
  | cons p t ih =>
    intro acc hmem hO
    rcases List.mem_cons.mp hmem with he | ht
    · subst he
      have hstep := tickPendingFold_commit dtMillis acc (pid, o, s) hle
      constructor
      · rw [List.foldl_cons, hstep]
        exact pendingLoop_obj_preserve dtMillis o t _
          (fun q hq => hO q (List.mem_cons_of_mem _ hq))
          (upsertObject_self_mem _ _ _)
      · rw [List.foldl_cons, hstep]
        exact pendingLoop_broadcast_mono dtMillis t _ _
          (List.mem_append_right _ (List.mem_singleton.mpr rfl))
    · rw [List.foldl_cons]
      exact ih (tickPendingFold dtMillis acc p) ht
        (fun q hq => hO q (List.mem_cons_of_mem _ hq))

/-- An unexpired pending entry survives the pending-spawn loop with its
countdown decremented by `dt/1000`. -/
theorem pendingLoop_survivor (dtMillis : ℝ) (pid : ℕ) (o : ObjectData)
    (s : ℝ) (hpos : ¬ s - dtMillis / 1000 ≤ 0) :
    ∀ (P : List (ℕ × ObjectData × ℝ)) (acc : TickState), (pid, o, s) ∈ P →
    (pid, o, s - dtMillis / 1000)
      ∈ (P.foldl (tickPendingFold dtMillis) acc).pendingObjectsToSpawn := by
  intro P
  induction P with
  | nil => exact fun acc h => absurd h (List.not_mem_nil _)
  | cons p t ih =>
    intro acc hmem
    rcases List.mem_cons.mp hmem with he | ht
    · subst he
      rw [List.foldl_cons, tickPendingFold_tick dtMillis acc _ hpos]
      exact pendingLoop_pending_mono dtMillis t _ _
        (List.mem_append_right _ (List.mem_singleton.mpr rfl))
    · rw [List.foldl_cons]
      exact ih _ ht

/-- If no unexpired pending entry carries the given id and no entry of the
accumulator's pending list carries it, then no entry of the loop's final
pending list carries it. -/
theorem pendingLoop_ids (dtMillis : ℝ) (id : ℕ) :
    ∀ (P : List (ℕ × ObjectData × ℝ)) (acc : TickState),
    (∀ q ∈ P, ¬ q.2.2 - dtMillis / 1000 ≤ 0 → q.2.1.objectId ≠ id) →
    (∀ q ∈ acc.pendingObjectsToSpawn, q.2.1.objectId ≠ id) →
    ∀ q ∈ (P.foldl (tickPendingFold dtMillis) acc).pendingObjectsToSpawn,
      q.2.1.objectId ≠ id := by
  intro P
  induction P with
  | nil => exact fun acc _ hacc => hacc
  | cons p t ih =>
    intro acc hP hacc
    rw [List.foldl_cons]
    refine ih _ (fun q hq => hP q (List.mem_cons_of_mem _ hq)) ?_
    intro q hq
    by_cases hc : p.2.2 - dtMillis / 1000 ≤ 0
    · rw [tickPendingFold_commit dtMillis acc p hc] at hq
      exact hacc q hq
    · rw [tickPendingFold_tick dtMillis acc p hc] at hq
      rcases List.mem_append.mp hq with h | h
      · exact hacc q h
      · have hq' := List.mem_singleton.mp h
        rw [hq']
        exact hP p (List.mem_cons_self _ _) hc

/-- If none of the removal ids is the given id, the removal loop keeps the
object's table entry, its TTL entry, the pending list, and all existing
broadcasts. -/
theorem removeLoop_pres (id : ℕ) (o : ObjectData) :
    ∀ (R : List ℕ) (acc : TickState), (∀ r ∈ R, r ≠ id) →
    ((id, o) ∈ acc.objectDataMap →
        (id, o) ∈ (R.foldl tickRemoveFold acc).objectDataMap)
    ∧ (R.foldl tickRemoveFold acc).tempObjectTTL id = acc.tempObjectTTL id
    ∧ (R.foldl tickRemoveFold acc).pendingObjectsToSpawn
        = acc.pendingObjectsToSpawn
    ∧ (∀ b ∈ acc.broadcasts, b ∈ (R.foldl tickRemoveFold acc).broadcasts) := by
  intro R
  induction R with
  | nil => exact fun acc _ => ⟨fun h => h, rfl, rfl, fun b hb => hb⟩
  | cons r t ih =>
    intro acc hR
    have hr : r ≠ id := hR r (List.mem_cons_self _ _)
    obtain ⟨g1, g2, g3, g4⟩ := ih (tickRemoveFold acc r)
      (fun x hx => hR x (List.mem_cons_of_mem _ hx))
    rw [List.foldl_cons]
    refine ⟨?_, ?_, ?_, ?_⟩
    · intro hm
      refine g1 ?_
      show (id, o) ∈ (acc.objectDataMap.filter fun q => q.1 ≠ r)
      exact List.mem_filter.mpr ⟨hm, by simpa using Ne.symm hr⟩
    · refine g2.trans ?_
      show (if id = r then none else acc.tempObjectTTL id) = acc.tempObjectTTL id
      exact if_neg (Ne.symm hr)
    · exact g3
    · intro b hb
      exact g4 b (List.mem_append_left _ hb)

/-- Once an ATTACK object with a registered TTL is stepped by the object
loop off SOLID ground, its TTL is decremented by `dt/1000`. -/
theorem tickAttackStep_countdown (E : TickEnv) (st' : TickState)
    (o : ObjectData) (dtMillis : ℝ) (t : ℝ)
    (ht : st'.tempObjectTTL o.objectId = some t)
    (hn : ¬ attackOnSolidTile E (attackMoved o dtMillis)) :
    (tickAttackStep E st' o.objectId o dtMillis).1.tempObjectTTL o.objectId
      = some (t - dtMillis / 1000) := by
  simp only [attackOnSolidTile, attackMoved] at hn
  unfold tickAttackStep
  dsimp only
  rw [if_neg hn, ht]
  dsimp only
  split <;> simp

/-- Claim C8: a pending attack spawn's countdown is decremented by
`dt/1000` each tick while its pre-registered lifetime TTL entry stays
unchanged; in the tick where the countdown reaches ≤ 0 the object is
committed to the object table, its `ObjectCreated` message is broadcast
reliably and the entry leaves the pending set; and only once the
materialized ATTACK object is stepped by the object loop does its TTL
start counting down. -/
theorem claim_C8_pending_spawn_lifecycle (E : TickEnv) (st : TickState)
    (dtMillis : ℝ) (pid : ℕ) (o : ObjectData) (s : ℝ)
    (hpend : (pid, o, s) ∈ st.pendingObjectsToSpawn)
    (hkey : o.objectId ∉ st.objectDataMap.map Prod.fst)
    (hdis : ∀ q ∈ st.pendingObjectsToSpawn, q ≠ (pid, o, s) →
      q.2.1.objectId ≠ o.objectId)
    (hrem : st.tempObjectsToRemove = []) :
    (serverTick E st dtMillis).tempObjectTTL o.objectId
        = st.tempObjectTTL o.objectId
    ∧ (¬ s - dtMillis / 1000 ≤ 0 →
        (pid, o, s - dtMillis / 1000)
          ∈ (serverTick E st dtMillis).pendingObjectsToSpawn)
    ∧ (s - dtMillis / 1000 ≤ 0 →
        (o.objectId, o) ∈ (serverTick E st dtMillis).objectDataMap
        ∧ (OutMessage.objectCreated o, Channel.RELIABLE)
            ∈ (serverTick E st dtMillis).broadcasts
        ∧ (∀ q ∈ (serverTick E st dtMillis).pendingObjectsToSpawn,
            q.2.1.objectId ≠ o.objectId))
    ∧ (∀ (st' : TickState) (t : ℝ),
        st'.tempObjectTTL o.objectId = some t →
        ¬ attackOnSolidTile E (attackMoved o dtMillis) →
        (tickAttackStep E st' o.objectId o dtMillis).1.tempObjectTTL o.objectId
          = some (t - dtMillis / 1000)) := by
  obtain ⟨p1, b1, k1, t1, r1⟩ :=
    objectLoop_frame E dtMillis (tickStage0 st).objectDataMap (tickStage0 st)
  have p1' : (tickStage1 E st dtMillis).pendingObjectsToSpawn
      = st.pendingObjectsToSpawn := p1
  have t1' : ∀ i, i ∉ st.objectDataMap.map Prod.fst →
      (tickStage1 E st dtMillis).tempObjectTTL i = st.tempObjectTTL i := t1
  have r1' : ∀ x ∈ (tickStage1 E st dtMillis).tempObjectsToRemove,
      x ∈ st.tempObjectsToRemove ∨ x ∈ st.objectDataMap.map Prod.fst := r1
  have hR : ∀ x ∈ (tickStage1 E st dtMillis).tempObjectsToRemove,
      x ≠ o.objectId := by
    intro x hx hxo
    rcases r1' x hx with h | h
    · rw [hrem] at h
      exact absurd h (List.not_mem_nil x)
    · rw [hxo] at h
      exact hkey h
  have hpend1 : (pid, o, s) ∈ (tickStage1 E st dtMillis).pendingObjectsToSpawn := by
    rw [p1']
    exact hpend
  have hdis1 : ∀ q ∈ (tickStage1 E st dtMillis).pendingObjectsToSpawn,
      q ≠ (pid, o, s) → q.2.1.objectId ≠ o.objectId := by
    intro q hq
    rw [p1'] at hq
    exact hdis q hq
  have f3 := pendingLoop_frame dtMillis
    (tickStage1 E st dtMillis).pendingObjectsToSpawn
    ({ tickStage1 E st dtMillis with pendingObjectsToSpawn := [] })
  have e3t : (tickStage3 E st dtMillis).tempObjectTTL
      = (tickStage1 E st dtMillis).tempObjectTTL := f3.1
  have e3r : (tickStage3 E st dtMillis).tempObjectsToRemove
      = (tickStage1 E st dtMillis).tempObjectsToRemove := f3.2
  have hR3 : ∀ r ∈ (tickStage3 E st dtMillis).tempObjectsToRemove,
      r ≠ o.objectId := by
    intro r hr
    rw [e3r] at hr
    exact hR r hr
  obtain ⟨g1, g2, g3, g4⟩ := removeLoop_pres o.objectId o
    (tickStage3 E st dtMillis).tempObjectsToRemove (tickStage3 E st dtMillis) hR3
  have g2' : (tickStage4 E st dtMillis).tempObjectTTL o.objectId
      = (tickStage3 E st dtMillis).tempObjectTTL o.objectId := g2
  have g3' : (tickStage4 E st dtMillis).pendingObjectsToSpawn
      = (tickStage3 E st dtMillis).pendingObjectsToSpawn := g3
  have efin_t : (serverTick E st dtMillis).tempObjectTTL
      = (tickStage4 E st dtMillis).tempObjectTTL := rfl
  have efin_p : (serverTick E st dtMillis).pendingObjectsToSpawn
      = (tickStage4 E st dtMillis).pendingObjectsToSpawn := rfl
  have efin_o : (serverTick E st dtMillis).objectDataMap
      = (tickStage4 E st dtMillis).objectDataMap := rfl
  refine ⟨?_, ?_, ?_, ?_⟩
  · rw [efin_t, g2', e3t]
    exact t1' o.objectId hkey
  · intro hpos
    rw [efin_p, g3']
    exact pendingLoop_survivor dtMillis pid o s hpos _ _ hpend1
  · intro hle
    have hO : ∀ q ∈ (tickStage1 E st dtMillis).pendingObjectsToSpawn,
        q.2.1.objectId = o.objectId → q.2.1 = o := by
      intro q hq hqid
      by_cases hqe : q = (pid, o, s)
      · rw [hqe]
      · exact absurd hqid (hdis1 q hq hqe)
    obtain ⟨hobj3, hbc3⟩ := pendingLoop_commit dtMillis o pid s hle
      (tickStage1 E st dtMillis).pendingObjectsToSpawn
      ({ tickStage1 E st dtMillis with pendingObjectsToSpawn := [] })
      hpend1 hO
    refine ⟨?_, ?_, ?_⟩
    · rw [efin_o]
      exact g1 hobj3
    · have hb4 : (OutMessage.objectCreated o, Channel.RELIABLE)
          ∈ (tickStage4 E st dtMillis).broadcasts := g4 _ hbc3
      exact List.mem_append_left _ hb4
    · intro q hq
      have hq4 : q ∈ (tickStage4 E st dtMillis).pendingObjectsToSpawn := by
        rw [← efin_p]
        exact hq
      rw [g3'] at hq4
      refine pendingLoop_ids dtMillis o.objectId
        (tickStage1 E st dtMillis).pendingObjectsToSpawn
        ({ tickStage1 E st dtMillis with pendingObjectsToSpawn := [] })
        ?_ ?_ q hq4
      · intro q' hq' hpos'
        by_cases hqe : q' = (pid, o, s)
        · rw [hqe] at hpos'
          exact absurd hle hpos'
        · exact hdis1 q' hq' hqe
      · intro q' hq'
        exact absurd hq' (List.not_mem_nil q')
  · intro st' t ht hn
    exact tickAttackStep_countdown E st' o dtMillis t ht hn

/-- Concrete run of C8: one pending spawn with a one-second countdown,
ticked by 100 ms: it survives with 0.9 s left and its TTL entry is
untouched. -/
theorem claim_C8_pending_spawn_lifecycle_witness :
    ((7, fxSpawnObj, (1 : ℝ)) ∈ fxTickSt.pendingObjectsToSpawn
      ∧ fxSpawnObj.objectId ∉ fxTickSt.objectDataMap.map Prod.fst
      ∧ fxTickSt.tempObjectsToRemove = []
      ∧ ¬ (1 : ℝ) - 100 / 1000 ≤ 0)
    ∧ (serverTick fxTickEnv fxTickSt 100).tempObjectTTL fxSpawnObj.objectId
        = fxTickSt.tempObjectTTL fxSpawnObj.objectId
    ∧ (7, fxSpawnObj, (1 : ℝ) - 100 / 1000)
        ∈ (serverTick fxTickEnv fxTickSt 100).pendingObjectsToSpawn := by
  have h1 : (7, fxSpawnObj, (1 : ℝ)) ∈ fxTickSt.pendingObjectsToSpawn :=
    List.mem_singleton.mpr rfl
  have h2 : fxSpawnObj.objectId ∉ fxTickSt.objectDataMap.map Prod.fst := by
    simp [fxTickSt]
  have h3 : ∀ q ∈ fxTickSt.pendingObjectsToSpawn, q ≠ (7, fxSpawnObj, (1 : ℝ)) →
      q.2.1.objectId ≠ fxSpawnObj.objectId := by
    intro q hq hne
    exact absurd (List.mem_singleton.mp hq) hne
  have h4 : fxTickSt.tempObjectsToRemove = [] := rfl
  have h5 : ¬ (1 : ℝ) - 100 / 1000 ≤ 0 := by norm_num
  obtain ⟨c1, c2, _, _⟩ := claim_C8_pending_spawn_lifecycle fxTickEnv fxTickSt
    100 7 fxSpawnObj 1 h1 h2 h3 h4
  exact ⟨⟨h1, h2, h4, h5⟩, c1, c2 h5⟩

/-- The heap pop model returns an element of the open list. -/
theorem pickMinF_mem (f : Cell → ℕ) :
    ∀ (l : List Cell) (c : Cell), pickMinF f l = some c → c ∈ l := by
  intro l
  induction l with
  | nil => intro c h; exact absurd h (by simp [pickMinF])
  | cons a t ih =>
    intro c h
    rw [pickMinF] at h
    rcases hp : pickMinF f t with _ | d
    · rw [hp] at h
      simp at h
      rw [h]
      exact List.mem_cons_self _ _
    · rw [hp] at h
      dsimp at h
      split at h
      · simp at h
        rw [h]
        exact List.mem_cons_self _ _
      · simp at h
        exact List.mem_cons_of_mem _ (h ▸ ih d hp)

/-- Membership in the in-bounds cell enumeration. -/
theorem mem_inBoundsCells (N : ℕ) (c : Cell) :
    c ∈ inBoundsCells N ↔
      0 ≤ c.1 ∧ c.1 < (N : ℤ) ∧ 0 ≤ c.2 ∧ c.2 < (N : ℤ) := by
  unfold inBoundsCells
  constructor
  · intro h
    rcases List.mem_flatMap.mp h with ⟨r, hr, hc⟩
    rcases List.mem_map.mp hc with ⟨k, hk, he⟩
    rw [List.mem_range] at hr hk
    subst he
    dsimp
    omega
  · rintro ⟨h1, h2, h3, h4⟩
    refine List.mem_flatMap.mpr ⟨c.1.toNat, List.mem_range.mpr (by omega),
      List.mem_map.mpr ⟨c.2.toNat, List.mem_range.mpr (by omega), ?_⟩⟩
    refine Prod.ext ?_ ?_
    · dsimp
      omega
    · dsimp
      omega

/-- The in-bounds enumeration has N² cells. -/
theorem length_inBoundsCells (N : ℕ) : (inBoundsCells N).length = N * N := by
  unfold inBoundsCells
  rw [List.length_flatMap]
  have h : ((List.range N).map
      (List.length ∘ fun r =>
        (List.range N).map fun c => (Int.ofNat r, Int.ofNat c)))
        = (List.range N).map fun _ => N := by
    apply List.map_congr_left
    intro r _
    show ((List.range N).map fun c => (Int.ofNat r, Int.ofNat c)).length = N
    rw [List.length_map, List.length_range]
  rw [h, List.map_const', List.sum_replicate, List.length_range, smul_eq_mul]

/-- The Manhattan heuristic is symmetric. -/
theorem heuristicLambda_comm (a b : Cell) :
    HeuristicLambda a b = HeuristicLambda b a := by
  unfold HeuristicLambda
  omega

/-- The reconstruction walk, from an allocated cell with enough fuel, is a
nonempty parent chain from that cell down to the start, each link adjacent,
with the start appearing only as the final element. -/
theorem chainWalk_spec (start : Cell) (par : Cell → Option Cell)
    (g : Cell → ℕ) (known : List Cell) (hstart : par start = none)
    (hlink : ∀ c ∈ known, c ≠ start →
      ∃ p, par c = some p ∧ p ∈ known ∧ g p < g c ∧ HeuristicLambda p c = 1) :
    ∀ (fuel : ℕ) (c : Cell), c ∈ known → g c < fuel →
    chainWalk par fuel c ≠ []
    ∧ (chainWalk par fuel c).head? = some c
    ∧ (chainWalk par fuel c).getLast? = some start
    ∧ List.Chain' (fun a b => HeuristicLambda a b = 1) (chainWalk par fuel c)
    ∧ start ∉ (chainWalk par fuel c).dropLast := by
  intro fuel
  induction fuel with
  | zero => intro c _ h; exact absurd h (Nat.not_lt_zero _)
  | succ fuel ih =>
    intro c hc hg
    by_cases hcs : c = start
    · subst hcs
      have he : chainWalk par (fuel + 1) c = [c] := by
        rw [chainWalk, hstart]
      rw [he]
      exact ⟨by simp, rfl, rfl, List.chain'_singleton c, by simp⟩
    · obtain ⟨p, hp, hpk, hpg, hadj⟩ := hlink c hc hcs
      have hstep : chainWalk par (fuel + 1) c = c :: chainWalk par fuel p := by
        rw [chainWalk, hp]
      obtain ⟨r1, r2, r3, r4, r5⟩ := ih p hpk (by omega)
      rcases hrest : chainWalk par fuel p with _ | ⟨hd, tl⟩
      · exact absurd hrest r1
      · rw [hrest] at hstep r2 r3 r4 r5
        have hhd : hd = p := by simpa using r2
        rw [hstep]
        refine ⟨by simp, by simp, ?_, ?_, ?_⟩
        · rw [List.getLast?_cons_cons]
          exact r3
        · rw [List.chain'_cons]
          refine ⟨?_, r4⟩
          rw [hhd, heuristicLambda_comm]
          exact hadj
        · rw [List.dropLast_cons₂]
          rw [List.mem_cons]
          push_neg
          exact ⟨fun h => hcs h.symm, r5⟩

/-- `AddOrUpdateNode` with a fresh cost `g(cur)+1` and an adjacent,
allocated parent preserves the loop invariant, never changes the parent
cell's own entry or the closed set, and pushes at most one heap entry. -/
theorem addOrUpdateNode_pres (N : ℕ) (start : Cell) (S : AStarState)
    (c cur : Cell) (gNew : ℕ) (hInv : AStarInv N start S)
    (hcur : cur ∈ S.known) (hg : gNew = S.g cur + 1)
    (hadj : HeuristicLambda cur c = 1) (hb : c ∈ inBoundsCells N) :
    AStarInv N start (addOrUpdateNode c gNew (some cur) S)
    ∧ (addOrUpdateNode c gNew (some cur) S).g cur = S.g cur
    ∧ cur ∈ (addOrUpdateNode c gNew (some cur) S).known
    ∧ (addOrUpdateNode c gNew (some cur) S).closed = S.closed
    ∧ (addOrUpdateNode c gNew (some cur) S).openList.length
        ≤ S.openList.length + 1 := by
  have hnec : c ≠ cur := by
    intro h
    rw [h] at hadj
    unfold HeuristicLambda at hadj
    omega
  unfold addOrUpdateNode
  by_cases hcond : c ∉ S.known ∨ gNew < S.g c
  · rw [if_pos hcond]
    have hcs : c ≠ start := by
      intro h
      rcases hcond with h1 | h2
      · exact h1 (h ▸ hInv.start_known)
      · rw [h, hInv.g_start] at h2
        omega
    by_cases hck : c ∈ S.known
    · have hgc : gNew < S.g c := by
        rcases hcond with h1 | h2
        · exact absurd hck h1
        · exact h2
      refine ⟨⟨hInv.closed_nodup, ?_, ?_, ?_, ?_, ?_, ?_, ?_, ?_⟩, ?_, ?_, rfl, ?_⟩
      · show S.closed ⊆ (if c ∈ S.known then S.known else c :: S.known)
        rw [if_pos hck]
        exact hInv.closed_known
      · show ∀ x ∈ S.openList ++ [c],
          x ∈ (if c ∈ S.known then S.known else c :: S.known)
        rw [if_pos hck]
        intro x hx
        rcases List.mem_append.mp hx with h | h
        · exact hInv.open_known h
        · rw [List.mem_singleton.mp h]
          exact hck
      · show (if c ∈ S.known then S.known else c :: S.known)
            ⊆ start :: inBoundsCells N
        rw [if_pos hck]
        exact hInv.known_bound
      · show start ∈ (if c ∈ S.known then S.known else c :: S.known)
        rw [if_pos hck]
        exact hInv.start_known
      · show (if start = c then gNew else S.g start) = 0
        rw [if_neg (Ne.symm hcs)]
        exact hInv.g_start
      · show (if start = c then some cur else S.parent start) = none
        rw [if_neg (Ne.symm hcs)]
        exact hInv.parent_start
      · intro x hx hxs
        have hx' : x ∈ S.known := by
          have : x ∈ (if c ∈ S.known then S.known else c :: S.known) := hx
          rw [if_pos hck] at this
          exact this
        by_cases hxc : x = c
        · subst hxc
          refine ⟨cur, ?_, ?_, ?_, hadj⟩
          · show (if x = x then some cur else S.parent x) = some cur
            rw [if_pos rfl]
          · show cur ∈ (if x ∈ S.known then S.known else x :: S.known)
            rw [if_pos hck]
            exact hcur
          · show (if cur = x then gNew else S.g cur)
                < (if x = x then gNew else S.g x)
            rw [if_neg (Ne.symm hnec), if_pos rfl]
            omega
        · obtain ⟨p, hp1, hp2, hp3, hp4⟩ := hInv.parent_link x hx' hxs
          refine ⟨p, ?_, ?_, ?_, hp4⟩
          · show (if x = c then some cur else S.parent x) = some p
            rw [if_neg hxc]
            exact hp1
          · show p ∈ (if c ∈ S.known then S.known else c :: S.known)
            rw [if_pos hck]
            exact hp2
          · show (if p = c then gNew else S.g p)
                < (if x = c then gNew else S.g x)
            rw [if_neg hxc]
            by_cases hpc : p = c
            · rw [if_pos hpc]
              have h3 : S.g c < S.g x := by
                rw [← hpc]
                exact hp3
              exact lt_trans hgc h3
            · rw [if_neg hpc]
              exact hp3
      · intro x hx
        have hx' : x ∈ S.known := by
          have : x ∈ (if c ∈ S.known then S.known else c :: S.known) := hx
          rw [if_pos hck] at this
          exact this
        show (if x = c then gNew else S.g x)
            < (if c ∈ S.known then S.known else c :: S.known).length
        rw [if_pos hck]
        by_cases hxc : x = c
        · rw [if_pos hxc]
          exact lt_trans hgc (hInv.g_lt c hck)
        · rw [if_neg hxc]
          exact hInv.g_lt x hx'
      · show (if cur = c then gNew else S.g cur) = S.g cur
        rw [if_neg (Ne.symm hnec)]
      · show cur ∈ (if c ∈ S.known then S.known else c :: S.known)
        rw [if_pos hck]
        exact hcur
      · show (S.openList ++ [c]).length ≤ S.openList.length + 1
        simp
    · refine ⟨⟨hInv.closed_nodup, ?_, ?_, ?_, ?_, ?_, ?_, ?_, ?_⟩, ?_, ?_, rfl, ?_⟩
      · show S.closed ⊆ (if c ∈ S.known then S.known else c :: S.known)
        rw [if_neg hck]
        exact fun x hx => List.mem_cons_of_mem _ (hInv.closed_known hx)
      · show ∀ x ∈ S.openList ++ [c],
          x ∈ (if c ∈ S.known then S.known else c :: S.known)
        rw [if_neg hck]
        intro x hx
        rcases List.mem_append.mp hx with h | h
        · exact List.mem_cons_of_mem _ (hInv.open_known h)
        · rw [List.mem_singleton.mp h]
          exact List.mem_cons_self _ _
      · show (if c ∈ S.known then S.known else c :: S.known)
            ⊆ start :: inBoundsCells N
        rw [if_neg hck]
        intro x hx
        rcases List.mem_cons.mp hx with h | h
        · rw [h]
          exact List.mem_cons_of_mem _ hb
        · exact hInv.known_bound h
      · show start ∈ (if c ∈ S.known then S.known else c :: S.known)
        rw [if_neg hck]
        exact List.mem_cons_of_mem _ hInv.start_known
      · show (if start = c then gNew else S.g start) = 0
        rw [if_neg (Ne.symm hcs)]
        exact hInv.g_start
      · show (if start = c then some cur else S.parent start) = none
        rw [if_neg (Ne.symm hcs)]
        exact hInv.parent_start
      · intro x hx hxs
        have hx' : x ∈ c :: S.known := by
          have : x ∈ (if c ∈ S.known then S.known else c :: S.known) := hx
          rw [if_neg hck] at this
          exact this
        by_cases hxc : x = c
        · subst hxc
          refine ⟨cur, ?_, ?_, ?_, hadj⟩
          · show (if x = x then some cur else S.parent x) = some cur
            rw [if_pos rfl]
          · show cur ∈ (if x ∈ S.known then S.known else x :: S.known)
            rw [if_neg hck]
            exact List.mem_cons_of_mem _ hcur
          · show (if cur = x then gNew else S.g cur)
                < (if x = x then gNew else S.g x)
            rw [if_neg (Ne.symm hnec), if_pos rfl]
            omega
        · have hxk : x ∈ S.known := by
            rcases List.mem_cons.mp hx' with h | h
            · exact absurd h hxc
            · exact h
          obtain ⟨p, hp1, hp2, hp3, hp4⟩ := hInv.parent_link x hxk hxs
          have hpc : p ≠ c := fun h => hck (h ▸ hp2)
          refine ⟨p, ?_, ?_, ?_, hp4⟩
          · show (if x = c then some cur else S.parent x) = some p
            rw [if_neg hxc]
            exact hp1
          · show p ∈ (if c ∈ S.known then S.known else c :: S.known)
            rw [if_neg hck]
            exact List.mem_cons_of_mem _ hp2
          · show (if p = c then gNew else S.g p)
                < (if x = c then gNew else S.g x)
            rw [if_neg hxc, if_neg hpc]
            exact hp3
      · intro x hx
        have hx' : x ∈ c :: S.known := by
          have : x ∈ (if c ∈ S.known then S.known else c :: S.known) := hx
          rw [if_neg hck] at this
          exact this
        show (if x = c then gNew else S.g x)
            < (if c ∈ S.known then S.known else c :: S.known).length
        rw [if_neg hck, List.length_cons]
        by_cases hxc : x = c
        · rw [if_pos hxc]
          have := hInv.g_lt cur hcur
          omega
        · rw [if_neg hxc]
          have hxk : x ∈ S.known := by
            rcases List.mem_cons.mp hx' with h | h
            · exact absurd h hxc
            · exact h
          have := hInv.g_lt x hxk
          omega
      · show (if cur = c then gNew else S.g cur) = S.g cur
        rw [if_neg (Ne.symm hnec)]
      · show cur ∈ (if c ∈ S.known then S.known else c :: S.known)
        rw [if_neg hck]
        exact List.mem_cons_of_mem _ hcur
      · show (S.openList ++ [c]).length ≤ S.openList.length + 1
        simp
  · rw [if_neg hcond]
    exact ⟨hInv, rfl, hcur, rfl, by omega⟩

/-- Folding `AddOrUpdateNode` over any list of unit directions preserves
the invariant, the closed set and the parent cell's entry, growing the
heap by at most one entry per direction. -/
theorem expandFold_pres (nm : Navmap) (N : ℕ) (hN : nm.GetSize = N)
    (start cur : Cell) (gNew : ℕ) :
    ∀ (ds : List (ℤ × ℤ)) (S : AStarState), AStarInv N start S →
    cur ∈ S.known → gNew = S.g cur + 1 →
    (∀ d ∈ ds, HeuristicLambda cur (cur.1 + d.1, cur.2 + d.2) = 1) →
    AStarInv N start (ds.foldl
      (fun acc d =>
        if 0 ≤ cur.1 + d.1 ∧ cur.1 + d.1 < (nm.GetSize : ℤ)
            ∧ 0 ≤ cur.2 + d.2 ∧ cur.2 + d.2 < (nm.GetSize : ℤ)
            ∧ nm.GetNavmapTileAt (cur.2 + d.2, cur.1 + d.1)
                = NavmapTileType.WALKABLE then
          addOrUpdateNode (cur.1 + d.1, cur.2 + d.2) gNew (some cur) acc
        else acc) S)
    ∧ (ds.foldl
      (fun acc d =>
        if 0 ≤ cur.1 + d.1 ∧ cur.1 + d.1 < (nm.GetSize : ℤ)
            ∧ 0 ≤ cur.2 + d.2 ∧ cur.2 + d.2 < (nm.GetSize : ℤ)
            ∧ nm.GetNavmapTileAt (cur.2 + d.2, cur.1 + d.1)
                = NavmapTileType.WALKABLE then
          addOrUpdateNode (cur.1 + d.1, cur.2 + d.2) gNew (some cur) acc
        else acc) S).closed = S.closed
    ∧ (ds.foldl
      (fun acc d =>
        if 0 ≤ cur.1 + d.1 ∧ cur.1 + d.1 < (nm.GetSize : ℤ)
            ∧ 0 ≤ cur.2 + d.2 ∧ cur.2 + d.2 < (nm.GetSize : ℤ)
            ∧ nm.GetNavmapTileAt (cur.2 + d.2, cur.1 + d.1)
                = NavmapTileType.WALKABLE then
          addOrUpdateNode (cur.1 + d.1, cur.2 + d.2) gNew (some cur) acc
        else acc) S).openList.length ≤ S.openList.length + ds.length := by
  intro ds
  induction ds with
  | nil => exact fun S hInv _ _ _ => ⟨hInv, rfl, by simp⟩
  | cons d t ih =>
    intro S hInv hcur hgeq hadj
    simp only [List.foldl_cons]
    by_cases hgd : 0 ≤ cur.1 + d.1 ∧ cur.1 + d.1 < (nm.GetSize : ℤ)
        ∧ 0 ≤ cur.2 + d.2 ∧ cur.2 + d.2 < (nm.GetSize : ℤ)
        ∧ nm.GetNavmapTileAt (cur.2 + d.2, cur.1 + d.1)
            = NavmapTileType.WALKABLE
    · rw [if_pos hgd]
      have hb : (cur.1 + d.1, cur.2 + d.2) ∈ inBoundsCells N := by
        rw [mem_inBoundsCells]
        rw [hN] at hgd
        exact ⟨hgd.1, hgd.2.1, hgd.2.2.1, hgd.2.2.2.1⟩
      obtain ⟨hInv2, hgcur, hcur2, hcl, hlen⟩ :=
        addOrUpdateNode_pres N start S (cur.1 + d.1, cur.2 + d.2) cur gNew
          hInv hcur hgeq (hadj d (List.mem_cons_self _ _)) hb
      obtain ⟨I2, C2, L2⟩ := ih _ hInv2 hcur2 (by rw [hgcur]; exact hgeq)
        (fun d' hd' => hadj d' (List.mem_cons_of_mem _ hd'))
      refine ⟨I2, C2.trans hcl, ?_⟩
      rw [List.length_cons]
      omega
    · rw [if_neg hgd]
      obtain ⟨I2, C2, L2⟩ := ih S hInv hcur hgeq
        (fun d' hd' => hadj d' (List.mem_cons_of_mem _ hd'))
      refine ⟨I2, C2, ?_⟩
      rw [List.length_cons]
      omega

/-- The unit-direction property of the four expansion directions. -/
theorem astarDirections_adj (cur : Cell) :
    ∀ d ∈ astarDirections,
    HeuristicLambda cur (cur.1 + d.1, cur.2 + d.2) = 1 := by
  intro d hd
  fin_cases hd <;> (unfold HeuristicLambda; dsimp only; omega)

/-- The neighbor expansion of one popped node preserves the invariant and
the closed set and grows the heap by at most four entries. -/
theorem expandNeighbors_pres (nm : Navmap) (N : ℕ) (hN : nm.GetSize = N)
    (start cur : Cell) (S : AStarState) (hInv : AStarInv N start S)
    (hcur : cur ∈ S.known) :
    AStarInv N start (expandNeighbors nm cur (S.g cur + 1) S)
    ∧ (expandNeighbors nm cur (S.g cur + 1) S).closed = S.closed
    ∧ (expandNeighbors nm cur (S.g cur + 1) S).openList.length
        ≤ S.openList.length + 4 := by
  have h := expandFold_pres nm N hN start cur (S.g cur + 1) astarDirections S
    hInv hcur rfl (astarDirections_adj cur)
  exact ⟨h.1, h.2.1, h.2.2⟩

/-- The A* loop, from any invariant-satisfying state and with fuel above
the measure, never exhausts its fuel, and any returned chain is a nonempty
adjacent parent chain from the end cell down to the start cell with the
start appearing only last. -/
theorem aStarLoop_spec (nm : Navmap) (N : ℕ) (hN : nm.GetSize = N)
    (endCell start : Cell) :
    ∀ (fuel : ℕ) (S : AStarState), AStarInv N start S →
    astarMeasure N S < fuel →
    aStarLoop nm endCell fuel S ≠ none
    ∧ (∀ chain, aStarLoop nm endCell fuel S = some (some chain) →
        chain ≠ [] ∧ chain.head? = some endCell
        ∧ chain.getLast? = some start
        ∧ List.Chain' (fun a b => HeuristicLambda a b = 1) chain
        ∧ start ∉ chain.dropLast) := by
  intro fuel
  induction fuel with
  | zero => intro S _ h; exact absurd h (Nat.not_lt_zero _)
  | succ fuel ih =>
    intro S hInv hμ
    cases hpick : pickMinF (fCost S endCell) S.openList with
    | none =>
      have he : aStarLoop nm endCell (fuel + 1) S = some none := by
        rw [aStarLoop, hpick]
      rw [he]
      exact ⟨by simp, fun chain h => by simp at h⟩
    | some cur =>
      have hcuro : cur ∈ S.openList := pickMinF_mem _ _ _ hpick
      have hcurk : cur ∈ S.known := hInv.open_known hcuro
      have hlen1 : 0 < S.openList.length :=
        List.length_pos.mpr (List.ne_nil_of_mem hcuro)
      have herase : (S.openList.erase cur).length = S.openList.length - 1 :=
        List.length_erase_of_mem hcuro
      by_cases hcl : cur ∈ S.closed
      · have he : aStarLoop nm endCell (fuel + 1) S
            = aStarLoop nm endCell fuel { S with openList := S.openList.erase cur } := by
          rw [aStarLoop, hpick]
          dsimp only
          rw [if_pos hcl]
        have hInv' : AStarInv N start { S with openList := S.openList.erase cur } :=
          ⟨hInv.closed_nodup, hInv.closed_known,
           fun x hx => hInv.open_known (List.erase_subset _ _ hx),
           hInv.known_bound, hInv.start_known, hInv.g_start,
           hInv.parent_start, hInv.parent_link, hInv.g_lt⟩
        have hμ' : astarMeasure N { S with openList := S.openList.erase cur } < fuel := by
          unfold astarMeasure at hμ ⊢
          dsimp only
          rw [herase]
          omega
        rw [he]
        exact ih _ hInv' hμ'
      · by_cases hend : cur = endCell
        · have he : aStarLoop nm endCell (fuel + 1) S
              = some (some (chainWalk S.parent (S.known.length + 1) cur)) := by
            rw [aStarLoop, hpick]
            dsimp only
            rw [if_neg hcl, if_pos hend]
          rw [he]
          refine ⟨by simp, ?_⟩
          intro chain h
          have hch : chain = chainWalk S.parent (S.known.length + 1) cur := by
            simp at h
            exact h.symm
          obtain ⟨r1, r2, r3, r4, r5⟩ := chainWalk_spec start S.parent S.g S.known
            hInv.parent_start hInv.parent_link (S.known.length + 1) cur hcurk
            (by have := hInv.g_lt cur hcurk; omega)
          rw [hch]
          refine ⟨r1, ?_, r3, r4, r5⟩
          rw [← hend]
          exact r2
        · have hInv2 : AStarInv N start
              { S with openList := S.openList.erase cur, closed := cur :: S.closed } :=
            ⟨List.nodup_cons.mpr ⟨hcl, hInv.closed_nodup⟩,
             fun x hx => by
               rcases List.mem_cons.mp hx with h | h
               · rw [h]; exact hcurk
               · exact hInv.closed_known h,
             fun x hx => hInv.open_known (List.erase_subset _ _ hx),
             hInv.known_bound, hInv.start_known, hInv.g_start,
             hInv.parent_start, hInv.parent_link, hInv.g_lt⟩
          have hlenc : (cur :: S.closed).length ≤ N * N + 1 := by
            have hsub : (cur :: S.closed) ⊆ start :: inBoundsCells N := by
              intro x hx
              rcases List.mem_cons.mp hx with h | h
              · rw [h]; exact hInv.known_bound hcurk
              · exact hInv.known_bound (hInv.closed_known h)
            have hnd : (cur :: S.closed).Nodup :=
              List.nodup_cons.mpr ⟨hcl, hInv.closed_nodup⟩
            have hle := (List.Nodup.subperm hnd hsub).length_le
            rw [List.length_cons, List.length_cons, length_inBoundsCells] at hle
            rw [List.length_cons]
            omega
          obtain ⟨hInv3, hcl3, hlen3⟩ := expandNeighbors_pres nm N hN start cur
            { S with openList := S.openList.erase cur, closed := cur :: S.closed }
            hInv2 hcurk
          have he : aStarLoop nm endCell (fuel + 1) S
              = aStarLoop nm endCell fuel
                  (expandNeighbors nm cur
                    ({ S with openList := S.openList.erase cur, closed := cur :: S.closed }.g cur + 1)
                    { S with openList := S.openList.erase cur, closed := cur :: S.closed }) := by
            rw [aStarLoop, hpick]
            dsimp only
            rw [if_neg hcl, if_neg hend]
          have hμ3 : astarMeasure N
              (expandNeighbors nm cur
                ({ S with openList := S.openList.erase cur, closed := cur :: S.closed }.g cur + 1)
                { S with openList := S.openList.erase cur, closed := cur :: S.closed }) < fuel := by
            unfold astarMeasure at hμ ⊢
            rw [hcl3]
            dsimp only
            dsimp only at hlen3
            rw [herase] at hlen3
            rw [List.length_cons] at hlenc ⊢
            omega
          rw [he]
          exact ih _ hInv3 hμ3

/-- The initial A* state of a task satisfies the loop invariant. -/
theorem astarInit_inv (K : NetConstants) (task : PathFindingTask) :
    AStarInv task.mNavmap.GetSize (astarStartCell K task)
      (astarInitState K task) := by
  unfold astarInitState addOrUpdateNode
  rw [if_pos (Or.inl (List.not_mem_nil _))]
  refine ⟨?_, ?_, ?_, ?_, ?_, ?_, ?_, ?_, ?_⟩
  · exact List.nodup_nil
  · exact List.nil_subset _
  · simp
  · simp
  · simp
  · simp
  · simp
  · intro c hc hca
    simp at hc
    exact absurd hc hca
  · intro c hc
    simp at hc
    subst hc
    simp

/-- The initial measure is below the chosen fuel. -/
theorem astarInit_measure (K : NetConstants) (task : PathFindingTask) :
    astarMeasure task.mNavmap.GetSize (astarInitState K task)
      < astarFuel task.mNavmap.GetSize := by
  unfold astarMeasure astarFuel astarInitState addOrUpdateNode
  rw [if_pos (Or.inl (List.not_mem_nil _))]
  simp
  omega

/-- Claim C10: for every navmap and any start and target world positions,
the worker's A* loop terminates: each popped node is skipped or newly
closed, neighbors come only from the in-bounds walkable tiles, re-pushes
carry strictly smaller g-costs, and the run at the measure-derived fuel
bound never exhausts it. -/
theorem claim_C10_astar_termination (K : NetConstants)
    (task : PathFindingTask) : astarRun K task ≠ none := by
  unfold astarRun
  exact (aStarLoop_spec task.mNavmap task.mNavmap.GetSize rfl
    (astarEndCell K task) (astarStartCell K task)
    (astarFuel task.mNavmap.GetSize) (astarInitState K task)
    (astarInit_inv K task) (astarInit_measure K task)).1

/-- Claim C6: an A* request whose start and target world positions map to
the same tile returns the empty path; if the open heap empties before the
end tile is reached the path is empty; otherwise the returned path is the
world centers of the reconstructed parent chain at the start position's z,
excluding the start tile, reversed so the front element is the first step
away from the start. -/
theorem claim_C6_astar_reconstruction (K : NetConstants)
    (task : PathFindingTask) :
    (task.mNavmap.GetNavmapCoord task.mStartPosition task.mMapPosition K.MAP_GAME_SCALE
        = task.mNavmap.GetNavmapCoord task.mTargetPosition task.mMapPosition K.MAP_GAME_SCALE →
      (FindPathWorker K task).mPath = [])
    ∧ (astarRun K task = some none → (FindPathWorker K task).mPath = [])
    ∧ (∀ chain,
        task.mNavmap.GetNavmapCoord task.mStartPosition task.mMapPosition K.MAP_GAME_SCALE
          ≠ task.mNavmap.GetNavmapCoord task.mTargetPosition task.mMapPosition K.MAP_GAME_SCALE →
        astarRun K task = some (some chain) →
        chain ≠ []
        ∧ chain.head? = some (astarEndCell K task)
        ∧ chain.getLast? = some (astarStartCell K task)
        ∧ List.Chain' (fun a b => HeuristicLambda a b = 1) chain
        ∧ astarStartCell K task ∉ chain.dropLast
        ∧ (FindPathWorker K task).mPath
            = (chain.dropLast.map (astarWorldPos K task)).reverse) := by
  refine ⟨?_, ?_, ?_⟩
  · intro h
    unfold FindPathWorker
    rw [if_pos h]
  · intro h
    unfold FindPathWorker
    by_cases hc : task.mNavmap.GetNavmapCoord task.mStartPosition task.mMapPosition K.MAP_GAME_SCALE
        = task.mNavmap.GetNavmapCoord task.mTargetPosition task.mMapPosition K.MAP_GAME_SCALE
    · rw [if_pos hc]
    · rw [if_neg hc, h]
  · intro chain hne hrun
    obtain ⟨c1, c2, c3, c4, c5⟩ := (aStarLoop_spec task.mNavmap
      task.mNavmap.GetSize rfl (astarEndCell K task) (astarStartCell K task)
      (astarFuel task.mNavmap.GetSize) (astarInitState K task)
      (astarInit_inv K task) (astarInit_measure K task)).2 chain
      (by unfold astarRun at hrun; exact hrun)
    have hlast : chain.getLast c1 = astarStartCell K task := by
      have h3 := c3
      rw [List.getLast?_eq_getLast chain c1] at h3
      exact Option.some.inj h3
    have hsplit : chain.dropLast ++ [astarStartCell K task] = chain := by
      rw [← hlast]
      exact List.dropLast_append_getLast c1
    have hds : chain.dropLast.filter (fun c => c ≠ astarStartCell K task)
        = chain.dropLast :=
      List.filter_eq_self.mpr
        (fun a ha => decide_eq_true (fun h => c5 (h ▸ ha)))
    have hone : ([astarStartCell K task]).filter
        (fun c => c ≠ astarStartCell K task) = [] := by
      simp
    have hfil : chain.filter (fun c => c ≠ astarStartCell K task)
        = chain.dropLast := by
      rw [← hsplit, List.filter_append, hds, hone, List.append_nil, hsplit]
    refine ⟨c1, c2, c3, c4, c5, ?_⟩
    unfold FindPathWorker
    rw [if_neg hne, hrun]
    dsimp only
    rw [hfil]

end TinyMMO
